import Mathlib

/-!
Python bindings of libcamera: completion channel, camera start and stop,
manager singleton and control value conversion.

A shallow embedding of `src/py/libcamera/pymain.cpp`. The process state the
bindings keep in static variables (`g_camera_manager`, `g_eventfd`,
`g_reqlist`) is an explicit record; every bound function is a function on
that record. Machine integers are `Nat`/`Int` with their ranges stated where
they matter; floating point values are IEEE 754 bit patterns.
-/

namespace Libcamera

/-! Floating point values. -/

/-- An IEEE 754 binary interchange format: the width of the trailing
significand field and of the exponent field. Values of a format are handled
as bit patterns (natural numbers below 2 ^ (mant + expo + 1)). -/
structure FloatFormat where
  mant : Nat
  expo : Nat
deriving DecidableEq, Repr

/-- The C type float. -/
def binary32 : FloatFormat := ⟨23, 8⟩

/-- The C type double, which is also what a Python float holds. -/
def binary64 : FloatFormat := ⟨52, 11⟩

def FloatFormat.bias (f : FloatFormat) : Nat := 2 ^ (f.expo - 1) - 1

/-- The all-ones exponent field (infinities and NaNs). -/
def FloatFormat.emax (f : FloatFormat) : Nat := 2 ^ f.expo - 1

/-- The exponent of the smallest normal number. -/
def FloatFormat.emin (f : FloatFormat) : Int := 1 - (f.bias : Int)

/-- What a bit pattern denotes. -/
inductive FloatDatum where
  /-- The number (-1)^sign * sig * 2^ex. -/
  | finite (sign : Bool) (sig : Nat) (ex : Int)
  | inf (sign : Bool)
  /-- A NaN with its trailing significand field. -/
  | nan (sign : Bool) (payload : Nat)
deriving DecidableEq, Repr

def signBit (f : FloatFormat) (sign : Bool) : Nat :=
  if sign then 2 ^ (f.mant + f.expo) else 0

def decodeFloat (f : FloatFormat) (bits : Nat) : FloatDatum :=
  let s := bits / 2 ^ (f.mant + f.expo) % 2 = 1
  let e := bits / 2 ^ f.mant % 2 ^ f.expo
  let m := bits % 2 ^ f.mant
  if e = f.emax then
    if m = 0 then .inf s else .nan s m
  else if e = 0 then .finite s m (f.emin - f.mant)
  else .finite s (2 ^ f.mant + m) ((e : Int) - f.bias - f.mant)

/-- Division of sig by 2 ^ shift, rounded to nearest, ties to even. -/
def roundShift (sig shift : Nat) : Nat :=
  let q := sig / 2 ^ shift
  let r := sig % 2 ^ shift
  if 2 ^ shift < 2 * r ∨ (2 ^ shift = 2 * r ∧ q % 2 = 1) then q + 1 else q

/-- The bit pattern of format f nearest to (-1)^sign * sig * 2^ex (round to
nearest, ties to even; a magnitude too large becomes an infinity). -/
def roundFloat (f : FloatFormat) (sign : Bool) (sig : Nat) (ex : Int) : Nat :=
  if sig = 0 then signBit f sign
  else
    let e : Int := max ((Nat.log2 sig : Int) + ex) f.emin
    let shift : Int := e - f.mant - ex
    let q := if shift ≤ 0 then sig * 2 ^ (-shift).toNat else roundShift sig shift.toNat
    let bits := (e + f.bias - 1).toNat * 2 ^ f.mant + q
    signBit f sign + min bits (f.emax * 2 ^ f.mant)

/-- Conversion of a NaN payload between significand widths, made quiet. -/
def nanPayload (src dst : FloatFormat) (p : Nat) : Nat :=
  let q := if src.mant ≤ dst.mant then p * 2 ^ (dst.mant - src.mant)
           else p / 2 ^ (src.mant - dst.mant)
  if q / 2 ^ (dst.mant - 1) % 2 = 1 then q else q + 2 ^ (dst.mant - 1)

/-- The C conversion between floating types. -/
def convertFloat (src dst : FloatFormat) (bits : Nat) : Nat :=
  match decodeFloat src bits with
  | .finite s sig ex => roundFloat dst s sig ex
  | .inf s => signBit dst s + dst.emax * 2 ^ dst.mant
  | .nan s p => signBit dst s + dst.emax * 2 ^ dst.mant + nanPayload src dst p

/-- The C conversion `(double) f` of a float. -/
def floatToDouble (bits : Nat) : Nat := convertFloat binary32 binary64 bits

/-- The C conversion `(float) d` of a double. -/
def doubleToFloat (bits : Nat) : Nat := convertFloat binary64 binary32 bits

/-! Python objects and the pybind11 casters the bindings use. -/

/-- A Python object that is not a container, as far as the casters used by
the bindings tell objects apart. -/
inductive PyAtom where
  | none
  | bool (b : Bool)
  | int (i : Int)
  /-- A Python float: the bit pattern of a double. -/
  | float (d : Nat)
  | str (s : String)
  /-- Any object that none of the casters accepts (a dict, a set, a nested
  container, an instance of a class without conversion methods). -/
  | object
deriving DecidableEq, Repr

/-- A Python object handed to or returned by a bound function. -/
inductive PyObj where
  | atom (a : PyAtom)
  | tuple (xs : List PyAtom)
  | list (xs : List PyAtom)
deriving DecidableEq, Repr

/-- The C++ exceptions the bindings let escape to Python. -/
inductive PyError where
  | runtime_error (what : String)
  | cast_error
  | system_error (code : Int) (what : String)
  /-- Not an exception: the code read past the end of a value's storage. -/
  | undefined_read
deriving DecidableEq, Repr

/-- The pybind11 caster of bool, used as `cast<bool>()` (conversion allowed):
True and False, None as false, and the truth value of a number. -/
def castBool : PyAtom → Option Bool
  | .bool b => some b
  | .none => some false
  | .int i => some (i != 0)
  | .float d => some (d % 2 ^ 63 != 0)
  | .str _ => Option.none
  | .object => Option.none

/-- The pybind11 caster of an integer type with values lo..hi: a Python int
(or bool) in range; a float is refused. -/
def castInt (lo hi : Int) : PyAtom → Option Int
  | .int i => if lo ≤ i ∧ i ≤ hi then some i else Option.none
  | .bool b => if lo ≤ (if b then 1 else 0) ∧ (if b then 1 else 0) ≤ hi
      then some (if b then 1 else 0) else Option.none
  | _ => Option.none

/-- The pybind11 caster of uint8_t. -/
def castUInt8 (a : PyAtom) : Option Nat := (castInt 0 255 a).map Int.toNat

/-- The pybind11 caster of int32_t. -/
def castInt32 : PyAtom → Option Int := castInt (-2147483648) 2147483647

/-- The pybind11 caster of int64_t. -/
def castInt64 : PyAtom → Option Int := castInt (-9223372036854775808) 9223372036854775807

/-- The double a Python int converts to (PyFloat_AsDouble); an int beyond the
range of a double raises OverflowError, which the caster turns into failure. -/
def intToDouble (i : Int) : Option Nat :=
  let d := roundFloat binary64 (decide (i < 0)) i.natAbs 0
  if d % 2 ^ 63 = binary64.emax * 2 ^ 52 then Option.none else some d

/-- The pybind11 caster of float: the double of a Python float, int or bool,
narrowed with `(float)`. -/
def castFloat : PyAtom → Option Nat
  | .float d => some (doubleToFloat d)
  | .int i => (intToDouble i).map doubleToFloat
  | .bool b => (intToDouble (if b then 1 else 0)).map doubleToFloat
  | _ => Option.none

/-- The pybind11 caster of std::string. -/
def castString : PyObj → Option String
  | .atom (.str s) => some s
  | _ => Option.none

/-- A scalar caster applied to an object: containers are refused. -/
def castScalar {α : Type} (elem : PyAtom → Option α) : PyObj → Option α
  | .atom a => elem a
  | _ => Option.none

/-- The loop of the pybind11 sequence casters: the items are cast in order
and pushed on the result; the first item the element caster refuses makes the
whole cast fail. -/
def castItems {α : Type} (elem : PyAtom → Option α) : List PyAtom → Option (List α)
  | [] => some []
  | a :: items =>
    match elem a with
    | Option.none => Option.none
    | some x =>
      match castItems elem items with
      | Option.none => Option.none
      | some xs => some (x :: xs)

/-- The pybind11 caster of `std::vector<T>`: a sequence (not a str) all of
whose items the element caster accepts. -/
def castVector {α : Type} (elem : PyAtom → Option α) : PyObj → Option (List α)
  | .tuple xs => castItems elem xs
  | .list xs => castItems elem xs
  | .atom _ => Option.none

/-- The pybind11 caster of `std::array<T, n>`: a sequence of exactly n items
all of which the element caster accepts. -/
def castArray {α : Type} (elem : PyAtom → Option α) (n : Nat) (ob : PyObj) : Option (List α) :=
  match castVector elem ob with
  | some xs => if xs.length = n then some xs else Option.none
  | Option.none => Option.none

/-! Control values. -/

inductive ControlType where
  | ControlTypeNone
  | ControlTypeBool
  | ControlTypeByte
  | ControlTypeInteger32
  | ControlTypeInteger64
  | ControlTypeFloat
  | ControlTypeString
  | ControlTypeRectangle
  | ControlTypeSize
deriving DecidableEq, Repr

/-- A rectangle: int x, y; unsigned int width, height. -/
structure Rectangle where
  x : Int
  y : Int
  width : Nat
  height : Nat
deriving DecidableEq, Repr

/-- A size: unsigned int width, height. -/
structure Size where
  width : Nat
  height : Nat
deriving DecidableEq, Repr

/-- The elements of a control value: one value, or an array (`isArray()`). -/
inductive Elems (α : Type) where
  | scalar (x : α)
  | array (xs : List α)
deriving DecidableEq, Repr

/-- A libcamera ControlValue: its type with its elements. Bytes are 0..255,
int32 and int64 elements lie in their ranges, floats are binary32 bit
patterns (see `ControlValue.WF`). -/
inductive ControlValue where
  | none
  | bool (v : Elems Bool)
  | byte (v : Elems Nat)
  | int32 (v : Elems Int)
  | int64 (v : Elems Int)
  | float (v : Elems Nat)
  | string (s : String)
  | rectangle (v : Elems Rectangle)
  | size (v : Elems Size)
deriving DecidableEq, Repr

def Elems.isArray {α : Type} : Elems α → Bool
  | .scalar _ => false
  | .array _ => true

def Elems.toList {α : Type} : Elems α → List α
  | .scalar x => [x]
  | .array xs => xs

/-- The first element of the storage (`cv.data().data()` read as one T). -/
def Elems.first? {α : Type} : Elems α → Option α
  | .scalar x => some x
  | .array xs => xs.head?

def ControlValue.type : ControlValue → ControlType
  | .none => .ControlTypeNone
  | .bool _ => .ControlTypeBool
  | .byte _ => .ControlTypeByte
  | .int32 _ => .ControlTypeInteger32
  | .int64 _ => .ControlTypeInteger64
  | .float _ => .ControlTypeFloat
  | .string _ => .ControlTypeString
  | .rectangle _ => .ControlTypeRectangle
  | .size _ => .ControlTypeSize

def ControlValue.isArray : ControlValue → Bool
  | .none => false
  | .bool v => v.isArray
  | .byte v => v.isArray
  | .int32 v => v.isArray
  | .int64 v => v.isArray
  | .float v => v.isArray
  | .string _ => true
  | .rectangle v => v.isArray
  | .size v => v.isArray

def ControlValue.numElements : ControlValue → Nat
  | .none => 0
  | .bool v => v.toList.length
  | .byte v => v.toList.length
  | .int32 v => v.toList.length
  | .int64 v => v.toList.length
  | .float v => v.toList.length
  | .string s => s.length
  | .rectangle v => v.toList.length
  | .size v => v.toList.length

/-- The elements lie in the ranges of their C types. -/
def ControlValue.WF : ControlValue → Prop
  | .byte v => ∀ x ∈ v.toList, x < 256
  | .int32 v => ∀ x ∈ v.toList, -2147483648 ≤ x ∧ x ≤ 2147483647
  | .int64 v => ∀ x ∈ v.toList, -9223372036854775808 ≤ x ∧ x ≤ 9223372036854775807
  | .float v => ∀ x ∈ v.toList, x < 2 ^ 32
  | .rectangle v => ∀ r ∈ v.toList, (-2147483648 ≤ r.x ∧ r.x ≤ 2147483647) ∧
      (-2147483648 ≤ r.y ∧ r.y ≤ 2147483647) ∧ r.width < 2 ^ 32 ∧ r.height < 2 ^ 32
  | .size v => ∀ z ∈ v.toList, z.width < 2 ^ 32 ∧ z.height < 2 ^ 32
  | _ => True

/-! Conversion of control values to and from Python (pymain.cpp, 28-111). -/

/-- The template `ValueOrTuple<T>`; toPy is the pybind11 cast of a T. -/
def ValueOrTuple {α : Type} (toPy : α → PyAtom) : Elems α → PyObj
  | .array xs => .tuple (xs.map toPy)
  | .scalar x => .atom (toPy x)

def ControlValueToPy : ControlValue → Except PyError PyObj
  | .bool v => .ok (ValueOrTuple PyAtom.bool v)
  | .byte v => .ok (ValueOrTuple (fun (n : Nat) => PyAtom.int n) v)
  | .int32 v => .ok (ValueOrTuple PyAtom.int v)
  | .int64 v => .ok (ValueOrTuple PyAtom.int v)
  | .float v => .ok (ValueOrTuple (fun f => PyAtom.float (floatToDouble f)) v)
  | .string s => .ok (.atom (.str s))
  | .rectangle v =>
    match v.first? with
    | some r => .ok (.tuple [.int r.x, .int r.y, .int r.width, .int r.height])
    | Option.none => .error .undefined_read
  | .size v =>
    match v.first? with
    | some z => .ok (.tuple [.int z.width, .int z.height])
    | Option.none => .error .undefined_read
  | .none => .error (.runtime_error "Unsupported ControlValue type")

/-- The template `ControlValueMaybeArray<T>`: the vector cast is tried first,
a cast_error falls through to the scalar cast, whose cast_error escapes. -/
def ControlValueMaybeArray {α : Type} (elem : PyAtom → Option α) (ob : PyObj) :
    Except PyError (Elems α) :=
  match castVector elem ob with
  | some vec => .ok (.array vec)
  | Option.none =>
    match castScalar elem ob with
    | some x => .ok (.scalar x)
    | Option.none => .error .cast_error

/-- The implicit conversion of an int to unsigned int. -/
def toUnsigned (i : Int) : Nat := (i % 4294967296).toNat

def PyToControlValue (ob : PyObj) : ControlType → Except PyError ControlValue
  | .ControlTypeBool =>
    match castScalar castBool ob with
    | some b => .ok (.bool (.scalar b))
    | Option.none => .error .cast_error
  | .ControlTypeByte => (ControlValueMaybeArray castUInt8 ob).map ControlValue.byte
  | .ControlTypeInteger32 => (ControlValueMaybeArray castInt32 ob).map ControlValue.int32
  | .ControlTypeInteger64 => (ControlValueMaybeArray castInt64 ob).map ControlValue.int64
  | .ControlTypeFloat => (ControlValueMaybeArray castFloat ob).map ControlValue.float
  | .ControlTypeString =>
    match castString ob with
    | some s => .ok (.string s)
    | Option.none => .error .cast_error
  | .ControlTypeRectangle =>
    match castArray castInt32 4 ob with
    | some [a0, a1, a2, a3] =>
      .ok (.rectangle (.scalar ⟨a0, a1, toUnsigned a2, toUnsigned a3⟩))
    | _ => .error .cast_error
  | .ControlTypeSize =>
    match castArray castInt32 2 ob with
    | some [a0, a1] => .ok (.size (.scalar ⟨toUnsigned a0, toUnsigned a1⟩))
    | _ => .error .cast_error
  | .ControlTypeNone => .error (.runtime_error "Control type not implemented")

/-- A ControlId: numeric id, name and type of a control. -/
structure ControlId where
  id : Nat
  name : String
  type : ControlType
deriving DecidableEq, Repr

/-- A ControlList: the values set, by numeric id. -/
abbrev ControlList := List (Nat × ControlValue)

/-- The call `ControlList::set(id, value)` for an id of the list's info map:
the entry for id is created or overwritten. -/
def ControlList.set : ControlList → Nat → ControlValue → ControlList
  | [], id, v => [(id, v)]
  | (k, w) :: rest, id, v =>
    if k = id then (k, v) :: rest else (k, w) :: ControlList.set rest id v

def ControlList.get (l : ControlList) (id : Nat) : Option ControlValue :=
  (l.find? (fun e => e.1 == id)).map Prod.snd

/-! The static state of the bindings and the completion channel
(pymain.cpp, 113-127 and 161-183). -/

/-- A `Request *`: a request is known to the channel by its address. -/
abbrev RequestPtr := Nat

/-- The largest value an eventfd counter holds. -/
def eventfdMax : Nat := 0xfffffffffffffffe

/-- The statics of pymain.cpp with the parts of the process they act on. -/
structure World where
  /-- The object `static weak_ptr<CameraManager> g_camera_manager` observes. -/
  g_camera_manager : Option Nat
  /-- Owners (shared_ptr use count) of the object g_camera_manager observes;
  the weak pointer is expired at 0. -/
  useCount : Nat
  g_eventfd : Int
  g_reqlist : List RequestPtr
  /-- The open eventfd descriptors of the process with their counters. -/
  eventfds : Int → Option Nat
  /-- The Python reference count of the wrapper of each request. -/
  pyRefcnt : RequestPtr → Int
  /-- The number of CameraManager objects constructed; an object is known by
  its rank of construction. -/
  constructed : Nat
  /-- The CameraManager objects deleted, in order. -/
  deleted : List Nat
  /-- The CameraManager objects whose start() was called, in order. -/
  startCalls : List Nat

/-- The statics as the loader leaves them: zero-initialised, nothing open. -/
def programStart : World where
  g_camera_manager := Option.none
  useCount := 0
  g_eventfd := 0
  g_reqlist := []
  eventfds := fun _ => Option.none
  pyRefcnt := fun _ => 0
  constructed := 0
  deleted := []
  startCalls := []

/-- The call `write(fd, &v, 8)`: the counter of the eventfd open at fd grows
by v. On a descriptor that is no open eventfd the call fails and nothing
changes; at a counter that cannot take v the call does not complete and the
counter stays. -/
def eventfdWrite (fds : Int → Option Nat) (fd : Int) (v : Nat) : Int → Option Nat :=
  match fds fd with
  | some c =>
    if c + v ≤ eventfdMax then fun k => if k = fd then some (c + v) else fds k else fds
  | Option.none => fds

/-- The call `close(fd)`. -/
def closeFd (fds : Int → Option Nat) (fd : Int) : Int → Option Nat :=
  fun k => if k = fd then Option.none else fds k

def handleRequestCompleted (w : World) (req : RequestPtr) : World :=
  let w1 := { w with g_reqlist := w.g_reqlist ++ [req] }
  { w1 with eventfds := eventfdWrite w1.eventfds w1.g_eventfd 1 }

/-- The call `o.dec_ref()` on the wrapper of req. -/
def decRef (refs : RequestPtr → Int) (req : RequestPtr) : RequestPtr → Int :=
  fun r => if r = req then refs r - 1 else refs r

/-- The call `o.inc_ref()` on the wrapper of req. -/
def incRef (refs : RequestPtr → Int) (req : RequestPtr) : RequestPtr → Int :=
  fun r => if r = req then refs r + 1 else refs r

/-- The bound `CameraManager.getReadyRequests`: the list is swapped out
against an empty one, then every request of it is cast, loses one reference
and is pushed on the result. -/
def getReadyRequests (w : World) : List RequestPtr × World :=
  let v := w.g_reqlist
  let w1 := { w with g_reqlist := [] }
  v.foldl (fun (acc : List RequestPtr × World) req =>
    (acc.1 ++ [req], { acc.2 with pyRefcnt := decRef acc.2.pyRefcnt req })) ([], w1)

/-- The bound property `CameraManager.efd`. -/
def efd (w : World) : Int := w.g_eventfd

/-- An eventfd is readable when its counter is not zero. -/
def wakeReadable (w : World) : Bool :=
  match w.eventfds w.g_eventfd with
  | some c => decide (0 < c)
  | Option.none => false

/-- What happens on the channel: the handler runs for a request, or the
consumer drains. -/
inductive ChannelOp where
  | completed (req : RequestPtr)
  | drain
deriving DecidableEq, Repr

/-- An interleaving of handler invocations and drains, run from w: the
results of the drains in order, and the final state. -/
def runChannel : World → List ChannelOp → List (List RequestPtr) × World
  | w, [] => ([], w)
  | w, .completed req :: ops => runChannel (handleRequestCompleted w req) ops
  | w, .drain :: ops =>
    ((getReadyRequests w).1 :: (runChannel (getReadyRequests w).2 ops).1,
      (runChannel (getReadyRequests w).2 ops).2)

/-- The requests passed to the handler, in invocation order. -/
def completedOf : List ChannelOp → List RequestPtr
  | [] => []
  | .completed req :: ops => req :: completedOf ops
  | .drain :: ops => completedOf ops

/-! The manager singleton (pymain.cpp, 134-157). -/

/-- The call `g_camera_manager.lock()`. -/
def lockManager (w : World) : Option Nat :=
  if 0 < w.useCount then w.g_camera_manager else Option.none

/-- The deleter given to the shared pointer: `close(g_eventfd); g_eventfd = -1;
delete p`. -/
def managerDeleter (w : World) (p : Nat) : World :=
  { w with eventfds := closeFd w.eventfds w.g_eventfd, g_eventfd := -1,
           deleted := w.deleted ++ [p] }

/-- One owner of the manager lets go of it; the last one runs the deleter. -/
def releaseManager (w : World) : World :=
  match w.g_camera_manager with
  | Option.none => w
  | some p =>
    if w.useCount = 0 then w
    else if w.useCount = 1 then managerDeleter { w with useCount := 0 } p
    else { w with useCount := w.useCount - 1 }

/-- The bound `CameraManager.singleton`. The results of the calls it makes
outside this file are inputs: fd and errno of `eventfd(0, 0)`, and startRet of
`CameraManager::start()`. The manager returned counts one more owner. -/
def singleton (w : World) (fd errno startRet : Int) : Except PyError Nat × World :=
  match lockManager w with
  | some cm => (.ok cm, { w with useCount := w.useCount + 1 })
  | Option.none =>
    if fd = -1 then
      (.error (.system_error errno "Failed to create eventfd"), w)
    else
      let w1 := { w with eventfds := fun k => if k = fd then some 0 else w.eventfds k }
      let cm := w1.constructed
      let w2 := { w1 with constructed := w1.constructed + 1 }
      let w3 := { w2 with g_eventfd := fd }
      let w4 := { w3 with g_camera_manager := some cm, useCount := 1 }
      let w5 := { w4 with startCalls := w4.startCalls ++ [cm] }
      if startRet ≠ 0 then
        (.error (.system_error (-startRet) "Failed to start CameraManager"), releaseManager w5)
      else
        (.ok cm, w5)

/-! The camera and the bound start and stop (pymain.cpp, 220-255). -/

inductive CameraState where
  | Available
  | Acquired
  | Configured
  | Running
deriving DecidableEq, Repr

/-- A slot connected to a signal: the handler of the bindings, or any other
function. -/
inductive Slot where
  | handleRequestCompleted
  | other (n : Nat)
deriving DecidableEq, Repr

/-- Modelled from the spec: the Signal class is not among the sources. The
subscribers are "an explicit subscriber list with stable identity for
removal"; connect appends a subscription. -/
def Signal.connect (slots : List Slot) (s : Slot) : List Slot := slots ++ [s]

/-- Modelled from the spec: the Signal class is not among the sources;
disconnect removes the subscriptions of the slot given. -/
def Signal.disconnect (slots : List Slot) (s : Slot) : List Slot :=
  slots.filter (fun t => t != s)

/-- The code -EACCES, with which libcamera answers a call made in the wrong
state (the StateError of the spec). -/
def stateError : Int := -13

/-- A libcamera Camera as the bindings see it. -/
structure Camera where
  state : CameraState
  /-- The ControlIds of the map `controls()`, in iteration order. -/
  controls : List ControlId
  /-- The slots connected to the signal requestCompleted, in order. -/
  requestCompleted : List Slot
  /-- The control lists `Camera::start` was invoked with, in order. -/
  startCalls : List ControlList
  /-- The number of invocations of `Camera::stop`. -/
  stopCalls : Nat
  /-- The controls applied by the last successful start. -/
  appliedControls : ControlList
deriving DecidableEq, Repr

/-- Modelled from the spec: Camera::start is not among the sources.
"start(controls): Configured→Running; applies initial controls and activates
the underlying VideoDevice(s)"; in any other state the call is a StateError.
The result of activating the devices is the input dev (0 on success). -/
def Camera.start (c : Camera) (controlList : ControlList) (dev : Int) : Int × Camera :=
  let c1 := { c with startCalls := c.startCalls ++ [controlList] }
  if c.state = .Configured then
    if dev = 0 then (0, { c1 with state := .Running, appliedControls := controlList })
    else (dev, c1)
  else (stateError, c1)

/-- Modelled from the spec: Camera::stop is not among the sources.
"stop(): Running→Configured"; in any other state the call is a StateError. -/
def Camera.stop (c : Camera) : Int × Camera :=
  let c1 := { c with stopCalls := c.stopCalls + 1 }
  if c.state = .Running then (0, { c1 with state := .Configured })
  else (stateError, c1)

/-- The loop of the bound start over the items of the dict, in iteration
order: the key is cast to a string and looked up by name in the control map
(`find_if`), the value is converted to the type of the control found and set
in the list; the first failure throws. -/
def buildControlList (controlMap : List ControlId) :
    List (PyObj × PyObj) → ControlList → Except PyError ControlList
  | [], controlList => .ok controlList
  | (k, v) :: items, controlList =>
    match castString k with
    | Option.none => .error .cast_error
    | some key =>
      match controlMap.find? (fun id => id.name == key) with
      | Option.none => .error (.runtime_error ("Control " ++ key ++ " not found"))
      | some id =>
        match PyToControlValue v id.type with
        | .error e => .error e
        | .ok cv => buildControlList controlMap items (ControlList.set controlList id.id cv)

/-- The bound `Camera.start`: what it returns or throws, and the camera
after it. -/
def PyCamera.start (self : Camera) (controls : List (PyObj × PyObj)) (dev : Int) :
    Except PyError Int × Camera :=
  let c1 := { self with
    requestCompleted := Signal.connect self.requestCompleted .handleRequestCompleted }
  match buildControlList c1.controls controls [] with
  | .error e => (.error e, c1)
  | .ok controlList =>
    let r := Camera.start c1 controlList dev
    if r.1 ≠ 0 then
      (.ok r.1, { r.2 with
        requestCompleted := Signal.disconnect r.2.requestCompleted .handleRequestCompleted })
    else (.ok r.1, r.2)

/-- The bound `Camera.stop`. -/
def PyCamera.stop (self : Camera) : Int × Camera :=
  let r := Camera.stop self
  if r.1 = 0 then
    (r.1, { r.2 with
      requestCompleted := Signal.disconnect r.2.requestCompleted .handleRequestCompleted })
  else (r.1, r.2)

/-- The camera raises requestCompleted for req: every connected slot runs
once, in connection order. -/
def emitRequestCompleted (c : Camera) (w : World) (req : RequestPtr) : World :=
  c.requestCompleted.foldl (fun w s =>
    match s with
    | .handleRequestCompleted => handleRequestCompleted w req
    | .other _ => w) w

/-- A call of the bound start or stop. -/
inductive CameraOp where
  | start (controls : List (PyObj × PyObj)) (dev : Int)
  | stop
deriving DecidableEq, Repr

/-- The camera after a call, whether it returned or threw. -/
def stepCamera (c : Camera) : CameraOp → Camera
  | .start controls dev => (PyCamera.start c controls dev).2
  | .stop => (PyCamera.stop c).2

/-- The camera after a sequence of calls. -/
def runCamera (c : Camera) (ops : List CameraOp) : Camera := ops.foldl stepCamera c

/-! Reuse of a request (pymain.cpp, 430-438 and 468-469). -/

inductive ReuseFlag where
  | Default
  | ReuseBuffers
deriving DecidableEq, Repr

inductive RequestStatus where
  | RequestPending
  | RequestComplete
  | RequestCancelled
deriving DecidableEq, Repr

/-- A libcamera Request: streams and buffers are known by their addresses. -/
structure Request where
  cookie : Nat
  status : RequestStatus
  /-- The Stream→FrameBuffer bindings, in the order they were added. -/
  buffers : List (Nat × Nat)
  controls : ControlList
  /-- The flags `Request::reuse` was called with, in order. -/
  reuseCalls : List ReuseFlag
deriving DecidableEq, Repr

/-- Modelled from the spec: Request::reuse is not among the sources.
"Default clears all buffer bindings and the control list, returning the
Request to a fresh bindable state. ReuseBuffers preserves existing
Stream→FrameBuffer bindings verbatim". -/
def Request.reuse (r : Request) (flags : ReuseFlag) : Request :=
  let r1 := { r with reuseCalls := r.reuseCalls ++ [flags], status := .RequestPending }
  match flags with
  | .Default => { r1 with buffers := [], controls := [] }
  | .ReuseBuffers => r1

/-- The bound `Request.reuse`, which takes no flag. -/
def PyRequest.reuse (self : Request) : Request := Request.reuse self .ReuseBuffers

/-! Traces of the manager singleton and concrete inputs. -/

/-- What a consumer does with the manager: ask for it (with the results of
the calls singleton makes outside this file), or let go of one reference. -/
inductive ManagerOp where
  | singleton (fd errno startRet : Int)
  | release
deriving DecidableEq, Repr

def stepManager (w : World) : ManagerOp → World
  | .singleton fd errno startRet => (singleton w fd errno startRet).2
  | .release => releaseManager w

/-- The state after a sequence of singleton calls and releases. -/
def runManager (w : World) (ops : List ManagerOp) : World := ops.foldl stepManager w

/-- What holds of the statics in every state the manager operations reach
from program start: every manager constructed was started once; while the
manager is owned it is the youngest one, it is the only one not deleted and
its wake descriptor is open; while none is owned all have been deleted. -/
def ManagerInv (w : World) : Prop :=
  w.startCalls = List.range w.constructed ∧
  (w.useCount = 0 → w.deleted = List.range w.constructed) ∧
  (0 < w.useCount → 0 < w.constructed ∧ w.g_camera_manager = some (w.constructed - 1) ∧
    w.deleted = List.range (w.constructed - 1) ∧ w.g_eventfd ≠ -1 ∧
    (w.eventfds w.g_eventfd).isSome = true)

/-- The state right after the first call of singleton, which got descriptor
5 from eventfd and 0 from start. -/
def firstManager : World := (singleton programStart 5 0 0).2

/-- A camera that was configured: one control, no subscriber yet. -/
def configuredCamera : Camera where
  state := .Configured
  controls := [⟨1, "Brightness", .ControlTypeFloat⟩]
  requestCompleted := []
  startCalls := []
  stopCalls := 0
  appliedControls := []

/-- A binary32 signalling NaN: the exponent field is all ones, the trailing
significand is not zero and its top bit is clear. Conversions to another
format change such a value into a quiet NaN. -/
def isSignallingNaN (bits : Nat) : Bool :=
  decide (bits / 2 ^ 23 % 256 = 255 ∧ bits % 2 ^ 23 ≠ 0 ∧ bits / 2 ^ 22 % 2 = 0)

/-- The Python objects the elements of a control value are cast to, in
element order. -/
def pyElems : ControlValue → List PyAtom
  | .bool v => v.toList.map PyAtom.bool
  | .byte v => v.toList.map (fun (n : Nat) => PyAtom.int n)
  | .int32 v => v.toList.map PyAtom.int
  | .int64 v => v.toList.map PyAtom.int
  | .float v => v.toList.map (fun f => PyAtom.float (floatToDouble f))
  | _ => []

/-- The floats of a control value, if it is of type float. -/
def floatElems : ControlValue → List Nat
  | .float v => v.toList
  | _ => []

/-! Frame buffers (pymain.cpp, 408-425). -/

/-- The constant `FrameBuffer::Plane::kInvalidOffset`, the largest unsigned
int; the declaration of Plane is not among the sources. -/
def kInvalidOffset : Nat := 4294967295

/-- A `FrameBuffer::Plane`: the descriptor a SharedFD holds, offset, length. -/
structure Plane where
  fd : Int
  offset : Nat
  length : Nat
deriving DecidableEq, Repr

/-- A libcamera FrameBuffer as the bindings see it: "an ordered sequence of
Planes {descriptor, offset, length}, an opaque cookie"; the constructor keeps
the planes and the cookie it is given. -/
structure FrameBuffer where
  planes : List Plane
  cookie : Nat
deriving DecidableEq, Repr

/-- The bound constructor of FrameBuffer: one plane for each (descriptor,
length) tuple, in order, pushed on the vector given to the constructor.
`SharedFD(fd)` duplicates the descriptor, so the descriptor it holds is the
one the system answers with: sharedFd is that answer, an input. -/
def PyFrameBuffer.init (sharedFd : Int → Int) (planes : List (Int × Nat)) (cookie : Nat) :
    FrameBuffer :=
  { planes := planes.foldl (fun v t => v ++ [⟨sharedFd t.1, kInvalidOffset, t.2⟩]) [],
    cookie := cookie }

/-- The bound `FrameBuffer.length`; an index past the planes is outside the
defined behaviour of `planes()[idx]` (no value). -/
def PyFrameBuffer.length (self : FrameBuffer) (idx : Nat) : Option Nat :=
  self.planes[idx]?.map Plane.length

/-- The bound `FrameBuffer.fd`. -/
def PyFrameBuffer.fd (self : FrameBuffer) (idx : Nat) : Option Int :=
  self.planes[idx]?.map Plane.fd

/-- The getter of the bound property `FrameBuffer.cookie`. -/
def PyFrameBuffer.cookie (self : FrameBuffer) : Nat := self.cookie

/-- The setter of the bound property `FrameBuffer.cookie`. -/
def PyFrameBuffer.setCookie (self : FrameBuffer) (cookie : Nat) : FrameBuffer :=
  { self with cookie := cookie }

/-! Setting a control of a request (pymain.cpp, 443-455). -/

/-- The bound `Request.set_control`; camera is `self.camera()`. The value is
converted before `ControlList::set` is entered, so a throw leaves the list of
the request as it was. -/
def PyRequest.set_control (self : Request) (camera : Camera) (control : String)
    (value : PyObj) : Except PyError Unit × Request :=
  match camera.controls.find? (fun id => id.name == control) with
  | Option.none => (.error (.runtime_error "Control not found"), self)
  | some id =>
    match PyToControlValue value id.type with
    | .error e => (.error e, self)
    | .ok cv => (.ok (), { self with controls := ControlList.set self.controls id.id cv })

/-! Looking a camera up by a part of its id (pymain.cpp, 187-200). -/

/-- The call `std::transform(s.begin(), s.end(), s.begin(), ::tolower)`: the
string lower-cased character by character (A-Z only). -/
def toLowerStr (s : String) : List Char := s.toList.map Char.toLower

/-- Whether needle stands at the start of hay. -/
def startsWith : List Char → List Char → Bool
  | _, [] => true
  | [], _ :: _ => false
  | h :: hay, n :: needle => h == n && startsWith hay needle

/-- The call `hay.find(needle)`: the first position at which needle occurs
in hay; none is `string::npos`. -/
def strFind : List Char → List Char → Option Nat
  | [], needle => if startsWith [] needle then some 0 else Option.none
  | h :: hay, needle =>
    if startsWith (h :: hay) needle then some 0
    else (strFind hay needle).map (fun p => p + 1)

/-- The loop of the bound `CameraManager.find` over `self.cameras()`, with
str already lower-cased: the first camera whose lower-cased id holds str is
returned, none (an empty shared_ptr) when the loop runs out. -/
def findLoop {C : Type} (id : C → String) (str : List Char) : List C → Option C
  | [] => Option.none
  | c :: cameras =>
    if (strFind (toLowerStr (id c)) str).isSome then some c
    else findLoop id str cameras

/-- The bound `CameraManager.find`; cameras is `self.cameras()` and id the
accessor `Camera::id`. -/
def CameraManager.find {C : Type} (id : C → String) (cameras : List C) (str : String) :
    Option C :=
  findLoop id (toLowerStr str) cameras

/-! Queueing a request and the references held on it (pymain.cpp, 267-277). -/

/-- The bound `Camera.queueRequest`; ret is the result of
`Camera::queueRequest`, an input. The reference of the local py_req is taken
and given back within the call; `inc_ref` is undone by `dec_ref` when ret
is not zero. -/
def PyCamera.queueRequest (w : World) (req : RequestPtr) (ret : Int) : Int × World :=
  let w1 := { w with pyRefcnt := incRef w.pyRefcnt req }
  if ret ≠ 0 then (ret, { w1 with pyRefcnt := decRef w1.pyRefcnt req })
  else (ret, w1)

/-- What happens to requests through the bindings: a request is queued (with
the result of the underlying call), the handler runs for a request, or the
consumer drains. -/
inductive BindingOp where
  | queueRequest (req : RequestPtr) (ret : Int)
  | completed (req : RequestPtr)
  | drain
deriving DecidableEq, Repr

/-- A sequence of binding operations run from w: the results of the drains
in order, and the final state. -/
def runBinding : World → List BindingOp → List (List RequestPtr) × World
  | w, [] => ([], w)
  | w, .queueRequest req ret :: ops => runBinding (PyCamera.queueRequest w req ret).2 ops
  | w, .completed req :: ops => runBinding (handleRequestCompleted w req) ops
  | w, .drain :: ops =>
    ((getReadyRequests w).1 :: (runBinding (getReadyRequests w).2 ops).1,
      (runBinding (getReadyRequests w).2 ops).2)

/-- The number of queueRequest calls for q that returned 0. -/
def queuedOk (q : RequestPtr) : List BindingOp → Nat
  | [] => 0
  | .queueRequest req ret :: ops =>
    (if req = q ∧ ret = 0 then 1 else 0) + queuedOk q ops
  | _ :: ops => queuedOk q ops

/-- The number of handler invocations for q. -/
def completionsOf (q : RequestPtr) : List BindingOp → Nat
  | [] => 0
  | .completed req :: ops => (if req = q then 1 else 0) + completionsOf q ops
  | _ :: ops => completionsOf q ops

/-! The test of the M2M device (test/v4l2_videodevice/v4l2_m2mdevice.cpp). -/

inductive TestResult where
  | TestPass
  | TestFail
  | TestSkip
deriving DecidableEq, Repr

/-- The two queues of an M2M device: `vim2m_->capture()`, `vim2m_->output()`. -/
inductive M2MQueue where
  | capture
  | output
deriving DecidableEq, Repr

/-- A call the test makes on the device or on one of its queues, with the
result the device gave. -/
inductive DeviceCall where
  | openDevice (ret : Int)
  | getFormat (q : M2MQueue) (ret : Int)
  | setFormat (q : M2MQueue) (width height : Nat) (ret : Int)
  | createBuffers (q : M2MQueue) (count : Nat)
  | exportBuffers (q : M2MQueue) (ret : Int)
  | queueAllBuffers (q : M2MQueue) (returned : Nat)
  | queueBuffer (q : M2MQueue) (index : Nat) (ret : Int)
  | streamOn (q : M2MQueue) (ret : Int)
  | streamOff (q : M2MQueue) (ret : Int)
deriving DecidableEq, Repr

/-- The member functions of the test connected to the bufferReady signals. -/
inductive TestSlot where
  | receiveCaptureBuffer
  | outputBufferComplete
deriving DecidableEq, Repr

/-- The members of V4L2M2MDeviceTest that run() and the handlers change, the
slots of the two bufferReady signals, and the calls made on the device. -/
structure V4L2M2MDeviceTest where
  /-- An unsigned int. -/
  outputFrames_ : Nat
  /-- An unsigned int. -/
  captureFrames_ : Nat
  captureBufferReady : List TestSlot
  outputBufferReady : List TestSlot
  calls : List DeviceCall
deriving DecidableEq, Repr

/-- A completion the device delivers: the queue, the index of the buffer,
and what the device will answer when the handler queues the buffer again. -/
structure BufferEvent where
  queue : M2MQueue
  index : Nat
  requeueRet : Int
deriving DecidableEq, Repr

/-- What the device answers to the calls of run(), and what each
`processEvents()` call made while the timer runs dispatches. -/
structure M2MEnv where
  openRet : Int
  getFormatRet : Int
  setFormatCapture : Int
  /-- The size in the format after the capture queue adjusted it. -/
  adjusted : Nat × Nat
  setFormatOutput : Int
  exportCapture : Int
  exportOutput : Int
  /-- The number of buffers `queueAllBuffers()` returns. -/
  captureBuffers : Nat
  /-- The value of `outputPool_.count()`. -/
  outputPoolCount : Nat
  queueOutput : Nat → Int
  streamOnCapture : Int
  streamOnOutput : Int
  passes : List (List BufferEvent)
  streamOffCapture : Int
  streamOffOutput : Int

def bufferCount : Nat := 4

def logCall (t : V4L2M2MDeviceTest) (c : DeviceCall) : V4L2M2MDeviceTest :=
  { t with calls := t.calls ++ [c] }

def receiveCaptureBuffer (t : V4L2M2MDeviceTest) (buffer : Nat) (ret : Int) :
    V4L2M2MDeviceTest :=
  logCall { t with captureFrames_ := (t.captureFrames_ + 1) % 2 ^ 32 }
    (.queueBuffer .capture buffer ret)

def outputBufferComplete (t : V4L2M2MDeviceTest) (buffer : Nat) (ret : Int) :
    V4L2M2MDeviceTest :=
  logCall { t with outputFrames_ := (t.outputFrames_ + 1) % 2 ^ 32 }
    (.queueBuffer .output buffer ret)

/-- The device raises bufferReady of a queue for a buffer: every slot
connected to that signal runs once, in connection order. -/
def emitBufferReady (t : V4L2M2MDeviceTest) (e : BufferEvent) : V4L2M2MDeviceTest :=
  (match e.queue with
    | .capture => t.captureBufferReady
    | .output => t.outputBufferReady).foldl (fun (t : V4L2M2MDeviceTest) (s : TestSlot) =>
      match s with
      | .receiveCaptureBuffer => receiveCaptureBuffer t e.index e.requeueRet
      | .outputBufferComplete => outputBufferComplete t e.index e.requeueRet) t

/-- One `dispatcher->processEvents()` call: the completions of the pass are
delivered in order. -/
def processEvents (t : V4L2M2MDeviceTest) (pass : List BufferEvent) : V4L2M2MDeviceTest :=
  pass.foldl emitBufferReady t

/-- The loop of run() that queues the output buffers by hand, from index i:
the first call that fails ends the test (false). -/
def queueOutputBuffers (env : M2MEnv) (t : V4L2M2MDeviceTest) :
    List Nat → Bool × V4L2M2MDeviceTest
  | [] => (true, t)
  | i :: rest =>
    if env.queueOutput i ≠ 0 then (false, logCall t (.queueBuffer .output i (env.queueOutput i)))
    else queueOutputBuffers env (logCall t (.queueBuffer .output i (env.queueOutput i))) rest

/-- The part of run() from the open of the device to the second streamOn;
false stands for a `return TestFail`. -/
def startStreaming (env : M2MEnv) : Bool × V4L2M2MDeviceTest :=
  let t : V4L2M2MDeviceTest := ⟨0, 0, [], [], []⟩
  let t := logCall t (.openDevice env.openRet)
  if env.openRet ≠ 0 then (false, t) else
  let t := logCall t (.getFormat .capture env.getFormatRet)
  if env.getFormatRet ≠ 0 then (false, t) else
  let t := logCall t (.setFormat .capture 640 480 env.setFormatCapture)
  if env.setFormatCapture ≠ 0 then (false, t) else
  let t := logCall t (.setFormat .output env.adjusted.1 env.adjusted.2 env.setFormatOutput)
  if env.setFormatOutput ≠ 0 then (false, t) else
  let t := logCall t (.createBuffers .capture bufferCount)
  let t := logCall t (.createBuffers .output bufferCount)
  let t := logCall t (.exportBuffers .capture env.exportCapture)
  if env.exportCapture ≠ 0 then (false, t) else
  let t := logCall t (.exportBuffers .output env.exportOutput)
  if env.exportOutput ≠ 0 then (false, t) else
  let t := { t with captureBufferReady := t.captureBufferReady ++ [TestSlot.receiveCaptureBuffer] }
  let t := { t with outputBufferReady := t.outputBufferReady ++ [TestSlot.outputBufferComplete] }
  let t := logCall t (.queueAllBuffers .capture env.captureBuffers)
  if env.captureBuffers = 0 then (false, t) else
  let r := queueOutputBuffers env t (List.range env.outputPoolCount)
  if r.1 = false then (false, r.2) else
  let t := logCall r.2 (.streamOn .capture env.streamOnCapture)
  if env.streamOnCapture ≠ 0 then (false, t) else
  let t := logCall t (.streamOn .output env.streamOnOutput)
  if env.streamOnOutput ≠ 0 then (false, t) else
  (true, t)

/-- The loop of run() around processEvents: each element of passes is one
call made while the timer runs; the loop is left when the timer has stopped
or as soon as more than 30 capture frames are counted. -/
def eventLoop (t : V4L2M2MDeviceTest) : List (List BufferEvent) → V4L2M2MDeviceTest
  | [] => t
  | pass :: passes =>
    if (processEvents t pass).captureFrames_ > 30 then processEvents t pass
    else eventLoop (processEvents t pass) passes

/-- The end of run(): the check of the frame count, then the two streamOff
calls. -/
def stopStreaming (env : M2MEnv) (t : V4L2M2MDeviceTest) : TestResult × V4L2M2MDeviceTest :=
  if t.captureFrames_ < 30 then (.TestFail, t) else
  let t := logCall t (.streamOff .capture env.streamOffCapture)
  if env.streamOffCapture ≠ 0 then (.TestFail, t) else
  let t := logCall t (.streamOff .output env.streamOffOutput)
  if env.streamOffOutput ≠ 0 then (.TestFail, t) else
  (.TestPass, t)

/-- The function `V4L2M2MDeviceTest::run`. -/
def run (env : M2MEnv) : TestResult × V4L2M2MDeviceTest :=
  if (startStreaming env).1 = false then (.TestFail, (startStreaming env).2)
  else stopStreaming env (eventLoop (startStreaming env).2 env.passes)

/-- Modelled from the spec: the streaming flag of a queue is not among the
sources. "streamOn/streamOff: streaming-flag transitions": after the calls
given, the capture queue streams when its last successful streamOn is not
followed by a successful streamOff. -/
def captureStreaming (calls : List DeviceCall) : Bool :=
  calls.foldl (fun (s : Bool) (c : DeviceCall) =>
    match c with
    | .streamOn .capture 0 => true
    | .streamOff .capture 0 => false
    | _ => s) false

/-- The number of `capture()->queueBuffer` calls among the calls given; the
only such call of the test is the one in receiveCaptureBuffer. -/
def captureRequeues (calls : List DeviceCall) : Nat :=
  calls.countP (fun (c : DeviceCall) =>
    match c with
    | .queueBuffer .capture _ _ => true
    | _ => false)

/-- An environment in which every call succeeds and each pass delivers one
capture completion, 31 passes long. -/
def goodEnv : M2MEnv where
  openRet := 0
  getFormatRet := 0
  setFormatCapture := 0
  adjusted := (640, 480)
  setFormatOutput := 0
  exportCapture := 0
  exportOutput := 0
  captureBuffers := 4
  outputPoolCount := 4
  queueOutput := fun _ => 0
  streamOnCapture := 0
  streamOnOutput := 0
  passes := List.replicate 31 [⟨.capture, 0, 0⟩]
  streamOffCapture := 0
  streamOffOutput := 0

/-! Conversion of a float to a double and back. -/

theorem log2_of_bounds (x n : Nat) (h1 : 2 ^ n ≤ x) (h2 : x < 2 ^ (n + 1)) : Nat.log2 x = n := by
  rw [Nat.log2_eq_log_two]
  exact Nat.log_eq_of_pow_le_of_lt_pow h1 h2

theorem binary32_consts : binary32.mant = 23 ∧ binary32.expo = 8 ∧ binary32.bias = 127 ∧
    binary32.emax = 255 ∧ binary32.emin = -126 := by
  simp [binary32, FloatFormat.bias, FloatFormat.emax, FloatFormat.emin]

theorem binary64_consts : binary64.mant = 52 ∧ binary64.expo = 11 ∧ binary64.bias = 1023 ∧
    binary64.emax = 2047 ∧ binary64.emin = -1022 := by
  simp [binary64, FloatFormat.bias, FloatFormat.emax, FloatFormat.emin]

theorem roundFloat_eq (f : FloatFormat) (s : Bool) (sig : Nat) (ex : Int) (n : Nat)
    (e shift : Int) (hsig : sig ≠ 0) (hn : Nat.log2 sig = n)
    (he : max ((n : Int) + ex) f.emin = e) (hshift : e - f.mant - ex = shift) :
    roundFloat f s sig ex = signBit f s + min ((e + f.bias - 1).toNat * 2 ^ f.mant +
      (if shift ≤ 0 then sig * 2 ^ (-shift).toNat else roundShift sig shift.toNat))
      (f.emax * 2 ^ f.mant) := by
  subst hn he hshift
  simp [roundFloat, hsig]

theorem widen_normal (e : Nat) (m : Nat) (s : Bool) (he1 : 1 ≤ e) (he2 : e ≤ 254) (hm : m < 2 ^ 23) :
    roundFloat binary64 s (2 ^ 23 + m) ((e : Int) - 150)
      = signBit binary64 s + ((e + 896) * 2 ^ 52 + m * 2 ^ 29) := by
  obtain ⟨c1, c2, c3, c4, c5⟩ := binary64_consts
  rw [roundFloat_eq binary64 s (2 ^ 23 + m) ((e : Int) - 150) 23 ((e : Int) - 127) (-29)
    (by omega) (log2_of_bounds _ 23 (by omega) (by omega)) (by rw [c5]; omega) (by rw [c1]; omega)]
  rw [c1, c3, c4]
  have h1 : ((e : Int) - 127 + ((1023 : Nat) : Int) - 1).toNat = e + 895 := by omega
  have h29 : (29 : Int).toNat = 29 := rfl
  rw [h1]
  simp only [Left.neg_nonpos_iff, Nat.ofNat_nonneg, if_true, neg_neg, h29]
  congr 1
  omega

theorem narrow_normal (e : Nat) (m : Nat) (s : Bool) (he1 : 1 ≤ e) (he2 : e ≤ 254) (hm : m < 2 ^ 23) :
    roundFloat binary32 s (2 ^ 52 + m * 2 ^ 29) ((e : Int) - 179)
      = signBit binary32 s + (e * 2 ^ 23 + m) := by
  obtain ⟨c1, c2, c3, c4, c5⟩ := binary32_consts
  rw [roundFloat_eq binary32 s _ ((e : Int) - 179) 52 ((e : Int) - 127) 29
    (by omega) (log2_of_bounds _ 52 (by omega) (by omega)) (by rw [c5]; omega) (by rw [c1]; omega)]
  rw [c1, c3, c4]
  have h1 : ((e : Int) - 127 + ((127 : Nat) : Int) - 1).toNat = e - 1 := by omega
  have h2 : roundShift (2 ^ 52 + m * 2 ^ 29) 29 = 2 ^ 23 + m := by
    unfold roundShift
    simp only
    have hq : (2 ^ 52 + m * 2 ^ 29) / 2 ^ 29 = 2 ^ 23 + m := by omega
    have hr : (2 ^ 52 + m * 2 ^ 29) % 2 ^ 29 = 0 := by omega
    rw [hq, hr]
    simp
  rw [h1]
  simp only [show ¬ ((29 : Int) ≤ 0) by omega, if_false, show (29 : Int).toNat = 29 by rfl, h2]
  congr 1
  omega

theorem roundShift_exact (m k : Nat) : roundShift (m * 2 ^ k) k = m := by
  have hpos : 0 < 2 ^ k := Nat.two_pow_pos k
  unfold roundShift
  simp only [Nat.mul_mod_left, Nat.mul_div_cancel _ hpos]
  have h1 : ¬ (2 ^ k < 2 * 0) := by omega
  have h2 : ¬ (2 ^ k = 2 * 0) := by omega
  simp [h1, h2]

theorem signBit32 (s : Bool) : signBit binary32 s = if s then 2 ^ 31 else 0 := rfl

theorem signBit64 (s : Bool) : signBit binary64 s = if s then 2 ^ 63 else 0 := rfl

theorem decodeFloat32_eq (s : Bool) (e m : Nat) (he : e < 256) (hm : m < 2 ^ 23) :
    decodeFloat binary32 (signBit binary32 s + (e * 2 ^ 23 + m)) =
      if e = 255 then (if m = 0 then .inf s else .nan s m)
      else if e = 0 then .finite s m (-149)
      else .finite s (2 ^ 23 + m) ((e : Int) - 150) := by
  obtain ⟨c1, c2, c3, c4, c5⟩ := binary32_consts
  have hs : decide ((signBit binary32 s + (e * 2 ^ 23 + m)) / 2 ^ (23 + 8) % 2 = 1) = s := by
    rw [signBit32]
    cases s
    · simp; omega
    · simp; omega
  have hE : (signBit binary32 s + (e * 2 ^ 23 + m)) / 2 ^ 23 % 2 ^ 8 = e := by
    rw [signBit32]
    cases s <;> simp <;> omega
  have hM : (signBit binary32 s + (e * 2 ^ 23 + m)) % 2 ^ 23 = m := by
    rw [signBit32]
    cases s <;> simp <;> omega
  have hx : (e : Int) - ((127 : Nat) : Int) - ((23 : Nat) : Int) = (e : Int) - 150 := by omega
  simp only [decodeFloat, c1, c2, c3, c4, c5, hs, hE, hM, hx]
  norm_num

theorem decodeFloat64_eq (s : Bool) (e m : Nat) (he : e < 2048) (hm : m < 2 ^ 52) :
    decodeFloat binary64 (signBit binary64 s + (e * 2 ^ 52 + m)) =
      if e = 2047 then (if m = 0 then .inf s else .nan s m)
      else if e = 0 then .finite s m (-1074)
      else .finite s (2 ^ 52 + m) ((e : Int) - 1075) := by
  obtain ⟨c1, c2, c3, c4, c5⟩ := binary64_consts
  have hs : decide ((signBit binary64 s + (e * 2 ^ 52 + m)) / 2 ^ (52 + 11) % 2 = 1) = s := by
    rw [signBit64]
    cases s
    · simp; omega
    · simp; omega
  have hE : (signBit binary64 s + (e * 2 ^ 52 + m)) / 2 ^ 52 % 2 ^ 11 = e := by
    rw [signBit64]
    cases s <;> simp <;> omega
  have hM : (signBit binary64 s + (e * 2 ^ 52 + m)) % 2 ^ 52 = m := by
    rw [signBit64]
    cases s <;> simp <;> omega
  have hx : (e : Int) - ((1023 : Nat) : Int) - ((52 : Nat) : Int) = (e : Int) - 1075 := by
    omega
  simp only [decodeFloat, c1, c2, c3, c4, c5, hs, hE, hM, hx]
  norm_num

theorem pow_bounds (m n : Nat) (h1 : 2 ^ n ≤ m) (h2 : m < 2 ^ (n + 1)) (hn : n ≤ 52) :
    2 ^ 52 ≤ m * 2 ^ (52 - n) ∧ m * 2 ^ (52 - n) < 2 ^ 53 := by
  have hpos : 0 < 2 ^ (52 - n) := Nat.two_pow_pos _
  have e1 : 2 ^ 52 = 2 ^ n * 2 ^ (52 - n) := by
    rw [← pow_add]; congr 1; omega
  have e2 : 2 ^ 53 = 2 ^ (n + 1) * 2 ^ (52 - n) := by
    rw [← pow_add]; congr 1; omega
  rw [e1, e2]
  exact ⟨Nat.mul_le_mul_right _ h1, Nat.mul_lt_mul_of_pos_right h2 hpos⟩

theorem widen_subnormal (m n : Nat) (s : Bool) (h1 : 2 ^ n ≤ m) (h2 : m < 2 ^ (n + 1))
    (hn : n ≤ 22) :
    roundFloat binary64 s m (-149)
      = signBit binary64 s + ((n + 873) * 2 ^ 52 + m * 2 ^ (52 - n)) := by
  obtain ⟨c1, c2, c3, c4, c5⟩ := binary64_consts
  obtain ⟨b1, b2⟩ := pow_bounds m n h1 h2 (by omega)
  have hm0 : m ≠ 0 := by
    have : 0 < 2 ^ n := Nat.two_pow_pos n
    omega
  rw [roundFloat_eq binary64 s m (-149) n ((n : Int) - 149) ((n : Int) - 52)
    hm0 (log2_of_bounds _ n h1 h2) (by rw [c5]; omega) (by rw [c1]; omega)]
  rw [c1, c3, c4]
  have e1 : ((n : Int) - 149 + ((1023 : Nat) : Int) - 1).toNat = n + 873 := by omega
  have e2 : (-((n : Int) - 52)).toNat = 52 - n := by omega
  have e3 : (n : Int) - 52 ≤ 0 := by omega
  rw [e1, e2]
  simp only [e3, if_true]
  congr 1
  generalize m * 2 ^ (52 - n) = X at b1 b2 ⊢
  omega

theorem narrow_subnormal (m n : Nat) (s : Bool) (h1 : 2 ^ n ≤ m) (h2 : m < 2 ^ (n + 1))
    (hn : n ≤ 22) :
    roundFloat binary32 s (m * 2 ^ (52 - n)) ((n : Int) - 201)
      = signBit binary32 s + m := by
  obtain ⟨c1, c2, c3, c4, c5⟩ := binary32_consts
  obtain ⟨b1, b2⟩ := pow_bounds m n h1 h2 (by omega)
  have hm : m < 2 ^ 23 := by
    have : 2 ^ (n + 1) ≤ 2 ^ 23 := Nat.pow_le_pow_right (by decide) (by omega)
    omega
  rw [roundFloat_eq binary32 s _ ((n : Int) - 201) 52 (-126) (52 - (n : Int))
    (by omega) (log2_of_bounds _ 52 b1 b2) (by rw [c5]; omega) (by rw [c1]; omega)]
  rw [c1, c3, c4]
  have e1 : ((-126 : Int) + ((127 : Nat) : Int) - 1).toNat = 0 := by omega
  have e2 : (52 - (n : Int)).toNat = 52 - n := by omega
  have e3 : ¬ (52 - (n : Int) ≤ 0) := by omega
  rw [e1, e2]
  simp only [e3, if_false, roundShift_exact]
  congr 1
  omega

theorem float_fields (b : Nat) (hb : b < 2 ^ 32) :
    b = signBit binary32 (decide (b / 2 ^ 31 % 2 = 1)) +
      (b / 2 ^ 23 % 256 * 2 ^ 23 + b % 2 ^ 23) := by
  rw [signBit32]
  by_cases h : b / 2 ^ 31 % 2 = 1
  · rw [decide_eq_true h, if_pos rfl]; omega
  · rw [decide_eq_false h, if_neg (by simp)]; omega

theorem convertFloat_finite (src dst : FloatFormat) (bits : Nat) (s : Bool) (sig : Nat)
    (ex : Int) (h : decodeFloat src bits = .finite s sig ex) :
    convertFloat src dst bits = roundFloat dst s sig ex := by
  unfold convertFloat
  rw [h]

theorem convertFloat_inf (src dst : FloatFormat) (bits : Nat) (s : Bool)
    (h : decodeFloat src bits = .inf s) :
    convertFloat src dst bits = signBit dst s + dst.emax * 2 ^ dst.mant := by
  unfold convertFloat
  rw [h]

theorem convertFloat_nan (src dst : FloatFormat) (bits : Nat) (s : Bool) (p : Nat)
    (h : decodeFloat src bits = .nan s p) :
    convertFloat src dst bits
      = signBit dst s + dst.emax * 2 ^ dst.mant + nanPayload src dst p := by
  unfold convertFloat
  rw [h]

theorem roundtrip_normal (s : Bool) (e m : Nat) (he1 : 1 ≤ e) (he2 : e ≤ 254)
    (hm : m < 2 ^ 23) :
    doubleToFloat (floatToDouble (signBit binary32 s + (e * 2 ^ 23 + m)))
      = signBit binary32 s + (e * 2 ^ 23 + m) := by
  have d32 : decodeFloat binary32 (signBit binary32 s + (e * 2 ^ 23 + m))
      = .finite s (2 ^ 23 + m) ((e : Int) - 150) := by
    rw [decodeFloat32_eq s e m (by omega) hm, if_neg (by omega), if_neg (by omega)]
  have w : floatToDouble (signBit binary32 s + (e * 2 ^ 23 + m))
      = signBit binary64 s + ((e + 896) * 2 ^ 52 + m * 2 ^ 29) := by
    unfold floatToDouble
    rw [convertFloat_finite _ _ _ _ _ _ d32, widen_normal e m s he1 he2 hm]
  have hex : (((e + 896 : Nat) : Int) - 1075) = (e : Int) - 179 := by omega
  have d64 : decodeFloat binary64 (signBit binary64 s + ((e + 896) * 2 ^ 52 + m * 2 ^ 29))
      = .finite s (2 ^ 52 + m * 2 ^ 29) ((e : Int) - 179) := by
    rw [decodeFloat64_eq s (e + 896) (m * 2 ^ 29) (by omega) (by omega), if_neg (by omega),
      if_neg (by omega), hex]
  rw [w]
  unfold doubleToFloat
  rw [convertFloat_finite _ _ _ _ _ _ d64, narrow_normal e m s he1 he2 hm]

theorem roundtrip_subnormal (s : Bool) (m : Nat) (hm0 : m ≠ 0) (hm : m < 2 ^ 23) :
    doubleToFloat (floatToDouble (signBit binary32 s + (0 * 2 ^ 23 + m)))
      = signBit binary32 s + (0 * 2 ^ 23 + m) := by
  have hn : Nat.log2 m ≤ 22 := by
    have := (Nat.log2_lt hm0 (k := 23)).mpr hm
    omega
  have h1 : 2 ^ Nat.log2 m ≤ m := Nat.log2_self_le hm0
  have h2 : m < 2 ^ (Nat.log2 m + 1) := Nat.lt_log2_self
  obtain ⟨b1, b2⟩ := pow_bounds m _ h1 h2 (by omega)
  generalize hX : m * 2 ^ (52 - Nat.log2 m) = X at b1 b2
  have d32 : decodeFloat binary32 (signBit binary32 s + (0 * 2 ^ 23 + m))
      = .finite s m (-149) := by
    rw [decodeFloat32_eq s 0 m (by omega) hm, if_neg (by omega), if_pos rfl]
  have w : floatToDouble (signBit binary32 s + (0 * 2 ^ 23 + m))
      = signBit binary64 s + ((Nat.log2 m + 874) * 2 ^ 52 + (X - 2 ^ 52)) := by
    unfold floatToDouble
    rw [convertFloat_finite _ _ _ _ _ _ d32, widen_subnormal m _ s h1 h2 hn, hX]
    omega
  have hex : (((Nat.log2 m + 874 : Nat) : Int) - 1075) = (Nat.log2 m : Int) - 201 := by omega
  have hsig : 2 ^ 52 + (X - 2 ^ 52) = X := by omega
  have d64 : decodeFloat binary64
      (signBit binary64 s + ((Nat.log2 m + 874) * 2 ^ 52 + (X - 2 ^ 52)))
      = .finite s X ((Nat.log2 m : Int) - 201) := by
    rw [decodeFloat64_eq s (Nat.log2 m + 874) (X - 2 ^ 52) (by omega) (by omega),
      if_neg (by omega), if_neg (by omega), hex, hsig]
  rw [w]
  unfold doubleToFloat
  rw [convertFloat_finite _ _ _ _ _ _ d64, ← hX, narrow_subnormal m _ s h1 h2 hn]
  omega

theorem roundtrip_zero (s : Bool) :
    doubleToFloat (floatToDouble (signBit binary32 s + (0 * 2 ^ 23 + 0)))
      = signBit binary32 s + (0 * 2 ^ 23 + 0) := by
  have d32 : decodeFloat binary32 (signBit binary32 s + (0 * 2 ^ 23 + 0))
      = .finite s 0 (-149) := by
    rw [decodeFloat32_eq s 0 0 (by omega) (by omega), if_neg (by omega), if_pos rfl]
  have r64 : roundFloat binary64 s 0 (-149) = signBit binary64 s + (0 * 2 ^ 52 + 0) := by
    unfold roundFloat
    rw [if_pos rfl]
    omega
  have w : floatToDouble (signBit binary32 s + (0 * 2 ^ 23 + 0))
      = signBit binary64 s + (0 * 2 ^ 52 + 0) := by
    unfold floatToDouble
    rw [convertFloat_finite _ _ _ _ _ _ d32, r64]
  have d64 : decodeFloat binary64 (signBit binary64 s + (0 * 2 ^ 52 + 0))
      = .finite s 0 (-1074) := by
    rw [decodeFloat64_eq s 0 0 (by omega) (by omega), if_neg (by omega), if_pos rfl]
  have r32 : roundFloat binary32 s 0 (-1074) = signBit binary32 s + (0 * 2 ^ 23 + 0) := by
    unfold roundFloat
    rw [if_pos rfl]
    omega
  rw [w]
  unfold doubleToFloat
  rw [convertFloat_finite _ _ _ _ _ _ d64, r32]

theorem roundtrip_inf (s : Bool) :
    doubleToFloat (floatToDouble (signBit binary32 s + (255 * 2 ^ 23 + 0)))
      = signBit binary32 s + (255 * 2 ^ 23 + 0) := by
  obtain ⟨c1, c2, c3, c4, c5⟩ := binary32_consts
  obtain ⟨d1, d2, d3, d4, d5⟩ := binary64_consts
  have d32 : decodeFloat binary32 (signBit binary32 s + (255 * 2 ^ 23 + 0)) = .inf s := by
    rw [decodeFloat32_eq s 255 0 (by omega) (by omega), if_pos rfl, if_pos rfl]
  have w : floatToDouble (signBit binary32 s + (255 * 2 ^ 23 + 0))
      = signBit binary64 s + (2047 * 2 ^ 52 + 0) := by
    unfold floatToDouble
    rw [convertFloat_inf _ _ _ _ d32, d1, d4]
    omega
  have d64 : decodeFloat binary64 (signBit binary64 s + (2047 * 2 ^ 52 + 0)) = .inf s := by
    rw [decodeFloat64_eq s 2047 0 (by omega) (by omega), if_pos rfl, if_pos rfl]
  rw [w]
  unfold doubleToFloat
  rw [convertFloat_inf _ _ _ _ d64, c1, c4]
  omega

theorem roundtrip_nan (s : Bool) (m : Nat) (hm0 : m ≠ 0) (hm : m < 2 ^ 23)
    (hq : m / 2 ^ 22 % 2 = 1) :
    doubleToFloat (floatToDouble (signBit binary32 s + (255 * 2 ^ 23 + m)))
      = signBit binary32 s + (255 * 2 ^ 23 + m) := by
  obtain ⟨c1, c2, c3, c4, c5⟩ := binary32_consts
  obtain ⟨d1, d2, d3, d4, d5⟩ := binary64_consts
  have d32 : decodeFloat binary32 (signBit binary32 s + (255 * 2 ^ 23 + m)) = .nan s m := by
    rw [decodeFloat32_eq s 255 m (by omega) hm, if_pos rfl, if_neg hm0]
  have hp : nanPayload binary32 binary64 m = m * 2 ^ 29 := by
    have h2 : m * 2 ^ 29 / 2 ^ 51 % 2 = 1 := by omega
    simp only [nanPayload, c1, d1, Nat.reduceLeDiff, if_true, Nat.reduceSub, h2]
  have w : floatToDouble (signBit binary32 s + (255 * 2 ^ 23 + m))
      = signBit binary64 s + (2047 * 2 ^ 52 + m * 2 ^ 29) := by
    unfold floatToDouble
    rw [convertFloat_nan _ _ _ _ _ d32, hp, d1, d4, Nat.add_assoc]
  have d64 : decodeFloat binary64 (signBit binary64 s + (2047 * 2 ^ 52 + m * 2 ^ 29))
      = .nan s (m * 2 ^ 29) := by
    rw [decodeFloat64_eq s 2047 (m * 2 ^ 29) (by omega) (by omega), if_pos rfl,
      if_neg (by omega)]
  have hp2 : nanPayload binary64 binary32 (m * 2 ^ 29) = m := by
    have h1 : m * 2 ^ 29 / 2 ^ 29 = m := by omega
    have h2 : m / 2 ^ 22 % 2 = 1 := by omega
    simp only [nanPayload, c1, d1, Nat.reduceLeDiff, if_false, Nat.reduceSub, h1, h2, if_true]
  rw [w]
  unfold doubleToFloat
  rw [convertFloat_nan _ _ _ _ _ d64, hp2, c1, c4, Nat.add_assoc]

theorem float_roundtrip_fields (s : Bool) (e m : Nat) (he : e < 256) (hm : m < 2 ^ 23)
    (hq : ¬ (e = 255 ∧ m ≠ 0 ∧ m / 2 ^ 22 % 2 = 0)) :
    doubleToFloat (floatToDouble (signBit binary32 s + (e * 2 ^ 23 + m)))
      = signBit binary32 s + (e * 2 ^ 23 + m) := by
  by_cases h255 : e = 255
  · subst h255
    by_cases hm0 : m = 0
    · subst hm0
      exact roundtrip_inf s
    · have hquiet : m / 2 ^ 22 % 2 = 1 := by
        have hne : ¬ (m / 2 ^ 22 % 2 = 0) := fun h => hq ⟨rfl, hm0, h⟩
        omega
      exact roundtrip_nan s m hm0 hm hquiet
  · by_cases h0 : e = 0
    · subst h0
      by_cases hm0 : m = 0
      · subst hm0
        exact roundtrip_zero s
      · exact roundtrip_subnormal s m hm0 hm
    · exact roundtrip_normal s e m (by omega) (by omega) hm

theorem float_roundtrip (b : Nat) (hb : b < 2 ^ 32) (hq : isSignallingNaN b = false) :
    doubleToFloat (floatToDouble b) = b := by
  have hf := float_fields b hb
  have hnot : ¬ (b / 2 ^ 23 % 256 = 255 ∧ b % 2 ^ 23 ≠ 0 ∧ b % 2 ^ 23 / 2 ^ 22 % 2 = 0) := by
    intro h
    obtain ⟨h1, h2, h3⟩ := h
    have h4 : b / 2 ^ 22 % 2 = 0 := by omega
    have hs : isSignallingNaN b = true := by
      unfold isSignallingNaN
      exact decide_eq_true ⟨h1, h2, h4⟩
    rw [hs] at hq
    exact Bool.noConfusion hq
  have h := float_roundtrip_fields (decide (b / 2 ^ 31 % 2 = 1)) (b / 2 ^ 23 % 256)
    (b % 2 ^ 23) (by omega) (by omega) hnot
  rw [← hf] at h
  exact h

/-! Properties of the completion channel. -/

/-- The loop of getReadyRequests returns the requests it walks over in order,
takes one reference from each, and touches nothing else. -/
theorem drainLoop_spec (v acc : List RequestPtr) (w : World) :
    (v.foldl (fun (acc : List RequestPtr × World) req =>
      (acc.1 ++ [req], { acc.2 with pyRefcnt := decRef acc.2.pyRefcnt req })) (acc, w)).1
        = acc ++ v ∧
    ∃ refs, (∀ q, refs q = w.pyRefcnt q - (v.count q : Int)) ∧
      (v.foldl (fun (acc : List RequestPtr × World) req =>
        (acc.1 ++ [req], { acc.2 with pyRefcnt := decRef acc.2.pyRefcnt req })) (acc, w)).2
          = { w with pyRefcnt := refs } := by
  induction v generalizing acc w with
  | nil => exact ⟨by simp, w.pyRefcnt, by simp, rfl⟩
  | cons x xs ih =>
    obtain ⟨h1, refs, h2, h3⟩ := ih (acc ++ [x]) { w with pyRefcnt := decRef w.pyRefcnt x }
    refine ⟨by simpa using h1, refs, ?_, by simpa using h3⟩
    intro q
    rw [h2 q]
    by_cases hq : q = x
    · subst hq
      simp [decRef]
      omega
    · have hx : ¬ x = q := fun h => hq h.symm
      simp [decRef, hq, List.count_cons, hx]

theorem getReadyRequests_fst (w : World) : (getReadyRequests w).1 = w.g_reqlist := by
  have h := (drainLoop_spec w.g_reqlist [] { w with g_reqlist := [] }).1
  simpa [getReadyRequests] using h

theorem getReadyRequests_snd (w : World) :
    ∃ refs, (∀ q, refs q = w.pyRefcnt q - (w.g_reqlist.count q : Int)) ∧
      (getReadyRequests w).2 = { w with g_reqlist := [], pyRefcnt := refs } := by
  obtain ⟨refs, h1, h2⟩ := (drainLoop_spec w.g_reqlist [] { w with g_reqlist := [] }).2
  exact ⟨refs, h1, by simpa [getReadyRequests] using h2⟩

theorem getReadyRequests_reqlist (w : World) : (getReadyRequests w).2.g_reqlist = [] := by
  obtain ⟨refs, _, h⟩ := getReadyRequests_snd w
  rw [h]

theorem getReadyRequests_eventfds (w : World) :
    (getReadyRequests w).2.eventfds = w.eventfds ∧
    (getReadyRequests w).2.g_eventfd = w.g_eventfd := by
  obtain ⟨refs, _, h⟩ := getReadyRequests_snd w
  rw [h]
  exact ⟨rfl, rfl⟩

theorem runChannel_concat (w : World) (ops : List ChannelOp) :
    (runChannel w ops).1.flatten ++ (runChannel w ops).2.g_reqlist
      = w.g_reqlist ++ completedOf ops := by
  induction ops generalizing w with
  | nil => simp [runChannel, completedOf]
  | cons op ops ih =>
    cases op with
    | completed req =>
      simp only [runChannel, completedOf]
      rw [ih]
      simp [handleRequestCompleted]
    | drain =>
      simp only [runChannel, completedOf, List.flatten_cons, List.append_assoc]
      rw [ih, getReadyRequests_fst, getReadyRequests_reqlist]
      simp

theorem runChannel_lengths (w : World) (ops : List ChannelOp) :
    (runChannel w ops).1.flatten.length + (runChannel w ops).2.g_reqlist.length
      = w.g_reqlist.length + (completedOf ops).length := by
  have h := congrArg List.length (runChannel_concat w ops)
  simpa using h

theorem handleRequestCompleted_counter (w : World) (req : RequestPtr) (c : Nat)
    (h : w.eventfds w.g_eventfd = some c) (hc : c + 1 ≤ eventfdMax) :
    (handleRequestCompleted w req).g_eventfd = w.g_eventfd ∧
    (handleRequestCompleted w req).eventfds w.g_eventfd = some (c + 1) := by
  simp [handleRequestCompleted, eventfdWrite, h, hc]

theorem runChannel_counter (w : World) (ops : List ChannelOp) (c0 : Nat)
    (h : w.eventfds w.g_eventfd = some c0)
    (hmax : c0 + (completedOf ops).length ≤ eventfdMax) :
    (runChannel w ops).2.g_eventfd = w.g_eventfd ∧
    (runChannel w ops).2.eventfds w.g_eventfd = some (c0 + (completedOf ops).length) := by
  induction ops generalizing w c0 with
  | nil => simpa [runChannel, completedOf] using h
  | cons op ops ih =>
    cases op with
    | completed req =>
      simp only [completedOf, List.length_cons] at hmax
      obtain ⟨h1, h2⟩ := handleRequestCompleted_counter w req c0 h (by omega)
      obtain ⟨h3, h4⟩ := ih (handleRequestCompleted w req) (c0 + 1) (by rw [h1]; exact h2)
        (by omega)
      simp only [runChannel, completedOf, List.length_cons]
      rw [h1] at h3 h4
      exact ⟨h3, by rw [h4]; congr 1; omega⟩
    | drain =>
      obtain ⟨e1, e2⟩ := getReadyRequests_eventfds w
      simp only [completedOf] at hmax
      obtain ⟨h3, h4⟩ := ih (getReadyRequests w).2 c0 (by rw [e1, e2]; exact h) hmax
      simp only [runChannel, completedOf]
      rw [e2] at h3 h4
      exact ⟨h3, h4⟩

/-- C1. Completion channel, no loss and no duplication: for every
interleaving of handler invocations and drains, run from any state, the
results of the drains concatenated, followed by the list still pending, are
the list pending at the outset followed by the requests passed to the
handler, in invocation order. Hence every request occurs in the drains and
the pending list together exactly as often as it was pending or passed to
the handler: one completion is in one drain only. -/
theorem completion_channel_no_loss_no_duplication (w : World) (ops : List ChannelOp) :
    (runChannel w ops).1.flatten ++ (runChannel w ops).2.g_reqlist
      = w.g_reqlist ++ completedOf ops ∧
    ∀ req : RequestPtr,
      (runChannel w ops).1.flatten.count req + (runChannel w ops).2.g_reqlist.count req
        = w.g_reqlist.count req + (completedOf ops).count req := by
  refine ⟨runChannel_concat w ops, fun req => ?_⟩
  have h := congrArg (List.count req) (runChannel_concat w ops)
  simpa using h

/-- C2. Idempotent drain: getReadyRequests leaves the pending list empty, and
a second getReadyRequests right after it returns the empty list and leaves
the whole state as it was. -/
theorem drain_idempotent (w : World) :
    (getReadyRequests w).2.g_reqlist = [] ∧
    getReadyRequests (getReadyRequests w).2 = ([], (getReadyRequests w).2) := by
  refine ⟨getReadyRequests_reqlist w, ?_⟩
  obtain ⟨refs, _, h⟩ := getReadyRequests_snd w
  rw [h]
  rfl

/-- C6. Wake channel, at-least-once wake with coalescing. From a state whose
wake descriptor is an open eventfd with counter c0 that covers the pending
list, and as long as the 64-bit counter is below its maximum: the handler
appends the request and adds exactly 1 to the counter, a drain leaves the
counter alone, and after any interleaving of completions and drains the
counter is c0 plus the number of completions, is at least the length of the
pending list, a non-empty pending list has the wake handle readable, and one
drain returns the whole pending list. -/
theorem wake_channel_coalescing (w : World) (c0 : Nat) (ops : List ChannelOp)
    (hfd : w.eventfds w.g_eventfd = some c0)
    (hpend : w.g_reqlist.length ≤ c0)
    (hmax : c0 + (completedOf ops).length < eventfdMax) :
    (∀ req, (handleRequestCompleted w req).g_reqlist = w.g_reqlist ++ [req] ∧
      (handleRequestCompleted w req).g_eventfd = w.g_eventfd ∧
      (handleRequestCompleted w req).eventfds w.g_eventfd = some (c0 + 1)) ∧
    ((getReadyRequests w).2.eventfds = w.eventfds ∧
      (getReadyRequests w).2.g_eventfd = w.g_eventfd) ∧
    (runChannel w ops).2.eventfds (runChannel w ops).2.g_eventfd
      = some (c0 + (completedOf ops).length) ∧
    (runChannel w ops).2.g_reqlist.length ≤ c0 + (completedOf ops).length ∧
    ((runChannel w ops).2.g_reqlist ≠ [] → wakeReadable (runChannel w ops).2 = true) ∧
    (getReadyRequests (runChannel w ops).2).1 = (runChannel w ops).2.g_reqlist ∧
    (getReadyRequests (runChannel w ops).2).2.g_reqlist = [] := by
  obtain ⟨h1, h2⟩ := runChannel_counter w ops c0 hfd (by omega)
  have h3 := runChannel_lengths w ops
  have hlen : (runChannel w ops).2.g_reqlist.length ≤ c0 + (completedOf ops).length := by omega
  refine ⟨fun req => ⟨rfl, ?_⟩, getReadyRequests_eventfds w, ?_, hlen, ?_,
    getReadyRequests_fst _, getReadyRequests_reqlist _⟩
  · exact handleRequestCompleted_counter w req c0 hfd (by omega)
  · rw [h1]; exact h2
  · intro hne
    have hpos : 0 < (runChannel w ops).2.g_reqlist.length := List.length_pos.mpr hne
    simp only [wakeReadable, h1, h2]
    simp
    omega

/-- C6, at a concrete input: after the first singleton call, two completions,
a drain and a third completion leave the counter at 3 and one request
pending. -/
theorem wake_channel_coalescing_witness :
    firstManager.eventfds firstManager.g_eventfd = some 0 ∧
    (runChannel firstManager [.completed 11, .completed 12, .drain, .completed 13]).2.eventfds
      (runChannel firstManager [.completed 11, .completed 12, .drain, .completed 13]).2.g_eventfd
      = some (0 + (completedOf [.completed 11, .completed 12, .drain, .completed 13]).length) ∧
    (runChannel firstManager [.completed 11, .completed 12, .drain, .completed 13]).1
      = [[11, 12]] ∧
    (runChannel firstManager [.completed 11, .completed 12, .drain, .completed 13]).2.g_reqlist
      = [13] :=
  ⟨rfl,
   (wake_channel_coalescing firstManager 0 [.completed 11, .completed 12, .drain, .completed 13]
      rfl (by decide) (by decide)).2.2.1,
   rfl, rfl⟩

/-! Properties of the manager singleton. -/

theorem managerInv_programStart : ManagerInv programStart := by
  simp [ManagerInv, programStart]

theorem releaseManager_last (w : World) (p : Nat) (hp : w.g_camera_manager = some p)
    (h : w.useCount = 1) :
    releaseManager w = { w with useCount := 0, eventfds := closeFd w.eventfds w.g_eventfd,
                                g_eventfd := -1, deleted := w.deleted ++ [p] } := by
  simp [releaseManager, hp, h, managerDeleter]

theorem releaseManager_shared (w : World) (p : Nat) (hp : w.g_camera_manager = some p)
    (h : 1 < w.useCount) :
    releaseManager w = { w with useCount := w.useCount - 1 } := by
  have h0 : ¬ w.useCount = 0 := by omega
  have h1 : ¬ w.useCount = 1 := by omega
  simp [releaseManager, hp, h0, h1]

theorem releaseManager_unowned (w : World) (h : w.useCount = 0) : releaseManager w = w := by
  unfold releaseManager
  split
  · rfl
  · simp [h]

theorem managerInv_release (w : World) (h : ManagerInv w) : ManagerInv (releaseManager w) := by
  obtain ⟨h1, h2, h3⟩ := h
  by_cases h0 : w.useCount = 0
  · rw [releaseManager_unowned w h0]; exact ⟨h1, h2, h3⟩
  · obtain ⟨c1, c2, c3, c4, c5⟩ := h3 (by omega)
    by_cases hone : w.useCount = 1
    · rw [releaseManager_last w _ c2 hone]
      refine ⟨h1, fun _ => ?_, fun hpos => absurd hpos (by simp)⟩
      show w.deleted ++ [w.constructed - 1] = List.range w.constructed
      rw [c3, ← List.range_succ]
      congr 1
      omega
    · rw [releaseManager_shared w _ c2 (by omega)]
      exact ⟨h1, fun hz => absurd hz (by simp; omega), fun _ => ⟨c1, c2, c3, c4, c5⟩⟩

theorem managerInv_singleton (w : World) (fd errno startRet : Int) (h : ManagerInv w) :
    ManagerInv (singleton w fd errno startRet).2 := by
  obtain ⟨h1, h2, h3⟩ := h
  unfold singleton
  cases hl : lockManager w with
  | some cm =>
    have hpos : 0 < w.useCount := by
      by_contra hn
      simp [lockManager, hn] at hl
    obtain ⟨c1, c2, c3, c4, c5⟩ := h3 hpos
    exact ⟨h1, fun hz => absurd hz (by simp), fun _ => ⟨c1, c2, c3, c4, c5⟩⟩
  | none =>
    have hz : w.useCount = 0 := by
      by_contra hn
      obtain ⟨c1, c2, c3, c4, c5⟩ := h3 (by omega)
      simp [lockManager, c2, Nat.pos_of_ne_zero hn] at hl
    simp only
    by_cases hfd : fd = -1
    · simp only [hfd, if_true]; exact ⟨h1, h2, h3⟩
    · simp only [hfd, if_false]
      have hcreated : ManagerInv
          { w with eventfds := fun k => if k = fd then some 0 else w.eventfds k,
                   constructed := w.constructed + 1, g_eventfd := fd,
                   g_camera_manager := some w.constructed, useCount := 1,
                   startCalls := w.startCalls ++ [w.constructed] } := by
        refine ⟨by simp [h1, List.range_succ], fun hz => absurd hz (by simp), fun _ => ?_⟩
        simp [h2 hz, hfd]
      by_cases hret : startRet = 0
      · simp only [hret, ne_eq, not_true_eq_false, if_false]; exact hcreated
      · simp only [ne_eq, hret, not_false_eq_true, if_true]
        exact managerInv_release _ hcreated

theorem managerInv_run (ops : List ManagerOp) (w : World) (h : ManagerInv w) :
    ManagerInv (runManager w ops) := by
  induction ops generalizing w with
  | nil => exact h
  | cons op ops ih =>
    cases op with
    | singleton fd errno startRet =>
      exact ih _ (managerInv_singleton w fd errno startRet h)
    | release => exact ih _ (managerInv_release w h)

theorem singleton_owned (w : World) (cm : Nat) (fd errno startRet : Int)
    (h : lockManager w = some cm) :
    singleton w fd errno startRet = (.ok cm, { w with useCount := w.useCount + 1 }) := by
  simp [singleton, h]

theorem singleton_created (w : World) (fd errno : Int) (h : lockManager w = Option.none)
    (hfd : fd ≠ -1) :
    singleton w fd errno 0 = (.ok w.constructed,
      { w with eventfds := fun k => if k = fd then some 0 else w.eventfds k,
               constructed := w.constructed + 1, g_eventfd := fd,
               g_camera_manager := some w.constructed, useCount := 1,
               startCalls := w.startCalls ++ [w.constructed] }) := by
  simp [singleton, h, hfd]

theorem singleton_failed (w : World) (fd errno ret : Int) (h : lockManager w = Option.none)
    (hfd : fd ≠ -1) (hret : ret ≠ 0) :
    singleton w fd errno ret = (.error (.system_error (-ret) "Failed to start CameraManager"),
      { w with eventfds := closeFd (fun k => if k = fd then some 0 else w.eventfds k) fd,
               constructed := w.constructed + 1, g_eventfd := -1,
               g_camera_manager := some w.constructed, useCount := 0,
               startCalls := w.startCalls ++ [w.constructed],
               deleted := w.deleted ++ [w.constructed] }) := by
  simp [singleton, h, hfd, hret, releaseManager, managerDeleter]

/-- C7. Lifetime of the CameraManager singleton, in every state w the
singleton calls and releases reach from program start. At program start no
manager exists. While the manager has an owner, the weak pointer locks to a
manager that is not deleted and whose wake descriptor is open, and singleton
returns that manager and changes nothing but the count of owners: no
descriptor is made, start is not called. A release that is not the last only
lowers the count; the last one deletes the manager, closes the wake
descriptor and sets g_eventfd to -1. While no manager is owned, a singleton
call whose eventfd and start succeed constructs a manager never seen before,
with a new descriptor of counter 0, and calls start on it. -/
theorem singleton_lifetime (w : World) (fd errno startRet : Int)
    (hw : ∃ ops, w = runManager programStart ops) :
    (programStart.constructed = 0 ∧ lockManager programStart = Option.none) ∧
    (0 < w.useCount →
      ∃ cm, lockManager w = some cm ∧ cm ∉ w.deleted ∧
        (w.eventfds w.g_eventfd).isSome = true ∧ w.g_eventfd ≠ -1 ∧
        singleton w fd errno startRet = (.ok cm, { w with useCount := w.useCount + 1 })) ∧
    (1 < w.useCount → releaseManager w = { w with useCount := w.useCount - 1 }) ∧
    (w.useCount = 1 →
      ∃ cm, lockManager w = some cm ∧
        releaseManager w = { w with useCount := 0,
                                    eventfds := closeFd w.eventfds w.g_eventfd,
                                    g_eventfd := -1, deleted := w.deleted ++ [cm] } ∧
        lockManager (releaseManager w) = Option.none ∧
        (releaseManager w).eventfds w.g_eventfd = Option.none) ∧
    (w.useCount = 0 → fd ≠ -1 →
      lockManager w = Option.none ∧ w.constructed ∉ w.deleted ∧
      w.constructed ∉ w.startCalls ∧
      singleton w fd errno 0 = (.ok w.constructed,
        { w with eventfds := fun k => if k = fd then some 0 else w.eventfds k,
                 constructed := w.constructed + 1, g_eventfd := fd,
                 g_camera_manager := some w.constructed, useCount := 1,
                 startCalls := w.startCalls ++ [w.constructed] })) := by
  obtain ⟨ops, rfl⟩ := hw
  obtain ⟨h1, h2, h3⟩ := managerInv_run ops programStart managerInv_programStart
  generalize runManager programStart ops = w at h1 h2 h3
  refine ⟨⟨rfl, rfl⟩, fun hpos => ?_, fun hgt => ?_, fun hone => ?_, fun hz hfd => ?_⟩
  · obtain ⟨c1, c2, c3, c4, c5⟩ := h3 hpos
    have hl : lockManager w = some (w.constructed - 1) := by simp [lockManager, hpos, c2]
    exact ⟨_, hl, by simp [c3], c5, c4, singleton_owned w _ fd errno startRet hl⟩
  · obtain ⟨c1, c2, c3, c4, c5⟩ := h3 (by omega)
    exact releaseManager_shared w _ c2 hgt
  · obtain ⟨c1, c2, c3, c4, c5⟩ := h3 (by omega)
    have hl : lockManager w = some (w.constructed - 1) := by simp [lockManager, hone, c2]
    refine ⟨_, hl, releaseManager_last w _ c2 hone, ?_, ?_⟩
    · rw [releaseManager_last w _ c2 hone]; simp [lockManager]
    · rw [releaseManager_last w _ c2 hone]; simp [closeFd]
  · have hl : lockManager w = Option.none := by simp [lockManager, hz]
    exact ⟨hl, by simp [h2 hz], by simp [h1], singleton_created w fd errno hl hfd⟩

/-- C7, at a concrete input: two singleton calls and one release leave one
owner; the next release is the last and closes descriptor 5. -/
theorem singleton_lifetime_witness :
    (runManager programStart [.singleton 5 0 0, .singleton 6 0 0, .release]).useCount = 1 ∧
    lockManager (runManager programStart [.singleton 5 0 0, .singleton 6 0 0, .release])
      = some 0 ∧
    (runManager programStart [.singleton 5 0 0, .singleton 6 0 0, .release]).g_eventfd = 5 ∧
    (releaseManager
      (runManager programStart [.singleton 5 0 0, .singleton 6 0 0, .release])).g_eventfd
      = -1 ∧
    (releaseManager
      (runManager programStart [.singleton 5 0 0, .singleton 6 0 0, .release])).eventfds 5
      = Option.none :=
  have h := (singleton_lifetime
    (runManager programStart [.singleton 5 0 0, .singleton 6 0 0, .release]) 7 0 0
    ⟨_, rfl⟩).2.2.2.1 rfl
  ⟨rfl, rfl, rfl, rfl, h.choose_spec.2.2.2⟩

/-- C8. Failure of the manager start inside singleton: when no manager is
owned, eventfd gave descriptor fd and start returns ret ≠ 0, singleton throws
the system_error of code -ret; afterwards no manager is owned, the manager
just made is deleted, descriptor fd is closed and g_eventfd is -1; a later
singleton call starts from scratch: it makes the next manager with the new
descriptor and calls start on it. -/
theorem singleton_start_failure (w : World) (fd errno ret fd2 errno2 : Int)
    (hw : lockManager w = Option.none) (hfd : fd ≠ -1) (hret : ret ≠ 0) (hfd2 : fd2 ≠ -1) :
    (singleton w fd errno ret).1
      = .error (.system_error (-ret) "Failed to start CameraManager") ∧
    lockManager (singleton w fd errno ret).2 = Option.none ∧
    (singleton w fd errno ret).2.useCount = 0 ∧
    (singleton w fd errno ret).2.deleted = w.deleted ++ [w.constructed] ∧
    (singleton w fd errno ret).2.eventfds fd = Option.none ∧
    (singleton w fd errno ret).2.g_eventfd = -1 ∧
    (singleton (singleton w fd errno ret).2 fd2 errno2 0).1 = .ok (w.constructed + 1) ∧
    (singleton (singleton w fd errno ret).2 fd2 errno2 0).2.g_eventfd = fd2 ∧
    (singleton (singleton w fd errno ret).2 fd2 errno2 0).2.eventfds fd2 = some 0 ∧
    (singleton (singleton w fd errno ret).2 fd2 errno2 0).2.useCount = 1 ∧
    (singleton (singleton w fd errno ret).2 fd2 errno2 0).2.startCalls
      = w.startCalls ++ [w.constructed, w.constructed + 1] := by
  rw [singleton_failed w fd errno ret hw hfd hret]
  have hl : lockManager
      { w with eventfds := closeFd (fun k => if k = fd then some 0 else w.eventfds k) fd,
               constructed := w.constructed + 1, g_eventfd := -1,
               g_camera_manager := some w.constructed, useCount := 0,
               startCalls := w.startCalls ++ [w.constructed],
               deleted := w.deleted ++ [w.constructed] } = Option.none := by
    simp [lockManager]
  rw [singleton_created _ fd2 errno2 hl hfd2]
  simp [lockManager, closeFd]

/-- C8, at a concrete input: at program start, with descriptor 5 and start
returning -19, singleton throws code 19 and a retry returns manager 1. -/
theorem singleton_start_failure_witness :
    (singleton programStart 5 0 (-19)).1
      = .error (.system_error 19 "Failed to start CameraManager") ∧
    (singleton programStart 5 0 (-19)).2.g_eventfd = -1 ∧
    (singleton (singleton programStart 5 0 (-19)).2 6 0 0).1 = .ok 1 :=
  have h := singleton_start_failure programStart 5 0 (-19) 6 0 rfl (by decide) (by decide)
    (by decide)
  ⟨h.1, h.2.2.2.2.2.1, h.2.2.2.2.2.2.1⟩

/-! Properties of the bound start and stop. -/

theorem buildControlList_append (controlMap : List ControlId)
    (pre rest : List (PyObj × PyObj)) (cl : ControlList) :
    buildControlList controlMap (pre ++ rest) cl =
      match buildControlList controlMap pre cl with
      | .error e => .error e
      | .ok cl1 => buildControlList controlMap rest cl1 := by
  induction pre generalizing cl with
  | nil => simp [buildControlList]
  | cons kv pre ih =>
    obtain ⟨k, v⟩ := kv
    simp only [List.cons_append, buildControlList]
    cases castString k with
    | none => rfl
    | some key =>
      simp only
      cases controlMap.find? (fun id => id.name == key) with
      | none => rfl
      | some id =>
        simp only
        cases PyToControlValue v id.type with
        | error e => rfl
        | ok cv => exact ih _

theorem buildControlList_unrecognized (controlMap : List ControlId)
    (pre post : List (PyObj × PyObj)) (k v : PyObj) (name : String) (cl : ControlList)
    (hk : castString k = some name) (hname : ∀ id ∈ controlMap, id.name ≠ name) :
    ∃ e, buildControlList controlMap (pre ++ (k, v) :: post) cl = .error e ∧
      ∀ cl1, buildControlList controlMap pre cl = .ok cl1 →
        e = .runtime_error ("Control " ++ name ++ " not found") := by
  have hfind : controlMap.find? (fun id => id.name == name) = Option.none := by
    rw [List.find?_eq_none]
    intro id hid
    simpa using hname id hid
  rw [buildControlList_append]
  cases hpre : buildControlList controlMap pre cl with
  | error e => exact ⟨e, rfl, fun cl1 h => by cases h⟩
  | ok cl0 =>
    refine ⟨.runtime_error ("Control " ++ name ++ " not found"), ?_, fun _ _ => rfl⟩
    simp [buildControlList, hk, hfind]

/-- C5. The bound start with a dict that holds a name outside the control
map of the camera (at any place: pre and post are the items before and after
it). The call throws; when all the items before the name are accepted the
exception is the runtime_error "Control <name> not found". Camera::start is
not invoked, no control is applied, and the state of the camera is as before:
a Configured camera stays Configured and is not Running. -/
theorem start_unrecognized_control (c : Camera) (pre post : List (PyObj × PyObj))
    (k v : PyObj) (name : String) (dev : Int)
    (hk : castString k = some name) (hname : ∀ id ∈ c.controls, id.name ≠ name) :
    (∃ e, (PyCamera.start c (pre ++ (k, v) :: post) dev).1 = .error e ∧
      ∀ cl1, buildControlList c.controls pre [] = .ok cl1 →
        e = .runtime_error ("Control " ++ name ++ " not found")) ∧
    (PyCamera.start c (pre ++ (k, v) :: post) dev).2.startCalls = c.startCalls ∧
    (PyCamera.start c (pre ++ (k, v) :: post) dev).2.appliedControls = c.appliedControls ∧
    (PyCamera.start c (pre ++ (k, v) :: post) dev).2.state = c.state ∧
    (c.state = .Configured →
      (PyCamera.start c (pre ++ (k, v) :: post) dev).2.state = .Configured ∧
      (PyCamera.start c (pre ++ (k, v) :: post) dev).2.state ≠ .Running) := by
  obtain ⟨e, he, hnot⟩ := buildControlList_unrecognized c.controls pre post k v name [] hk hname
  have hrun : PyCamera.start c (pre ++ (k, v) :: post) dev = (.error e,
      { c with requestCompleted := c.requestCompleted ++ [Slot.handleRequestCompleted] }) := by
    simp [PyCamera.start, he, Signal.connect]
  rw [hrun]
  refine ⟨⟨e, rfl, hnot⟩, rfl, rfl, rfl, fun hc => ?_⟩
  simp [hc]

/-- C5, at a concrete input: a recognized name with a good value, then an
unknown name. -/
theorem start_unrecognized_control_witness :
    (PyCamera.start configuredCamera
      ([(.atom (.str "Brightness"), .atom (.float 0))] ++
        (.atom (.str "Sharpnes"), .atom (.int 1)) :: []) 0).1
      = .error (.runtime_error "Control Sharpnes not found") ∧
    (PyCamera.start configuredCamera
      ([(.atom (.str "Brightness"), .atom (.float 0))] ++
        (.atom (.str "Sharpnes"), .atom (.int 1)) :: []) 0).2.state = .Configured :=
  have h := start_unrecognized_control configuredCamera
    [(.atom (.str "Brightness"), .atom (.float 0))] [] (.atom (.str "Sharpnes"))
    (.atom (.int 1)) "Sharpnes" 0 rfl (by decide)
  ⟨rfl, (h.2.2.2.2 rfl).1⟩

/-- C3, the code at the failing input: a start that throws on an unknown
control leaves the handler connected, the next start connects it again, and
one completion is then appended to the ready list twice. -/
theorem start_after_raise_delivers_twice :
    (PyCamera.start configuredCamera [(.atom (.str "NoSuchControl"), .atom (.int 1))] 0).1
      = .error (.runtime_error "Control NoSuchControl not found") ∧
    (runCamera configuredCamera
      [.start [(.atom (.str "NoSuchControl"), .atom (.int 1))] 0, .start [] 0]).state
      = .Running ∧
    (runCamera configuredCamera
      [.start [(.atom (.str "NoSuchControl"), .atom (.int 1))] 0, .start [] 0]).requestCompleted
      = [.handleRequestCompleted, .handleRequestCompleted] ∧
    (emitRequestCompleted (runCamera configuredCamera
      [.start [(.atom (.str "NoSuchControl"), .atom (.int 1))] 0, .start [] 0])
      firstManager 77).g_reqlist = [77, 77] := by
  exact ⟨rfl, rfl, rfl, rfl⟩

/-- C4, the code at the failing input: a start on a Running camera returns
the state error and disconnects the handler, the camera is still Running, and
a request completed then is not appended to the ready list. -/
theorem failed_start_while_running_loses_completion :
    (PyCamera.start configuredCamera [] 0).1 = .ok 0 ∧
    (PyCamera.start (PyCamera.start configuredCamera [] 0).2 [] 0).1 = .ok stateError ∧
    (runCamera configuredCamera [.start [] 0, .start [] 0]).state = .Running ∧
    (runCamera configuredCamera [.start [] 0, .start [] 0]).requestCompleted = [] ∧
    (emitRequestCompleted (runCamera configuredCamera [.start [] 0, .start [] 0])
      firstManager 77).g_reqlist = [] := by
  exact ⟨rfl, rfl, rfl, rfl, rfl⟩

/-! Reuse of a request. -/

/-- C9. The bound reuse calls Request::reuse once, with the flag
ReuseBuffers, and every Stream→FrameBuffer binding of the request is there
unchanged afterwards, in the same order. -/
theorem reuse_keeps_bindings (r : Request) :
    (PyRequest.reuse r).reuseCalls = r.reuseCalls ++ [ReuseFlag.ReuseBuffers] ∧
    ReuseFlag.Default ∉ ((PyRequest.reuse r).reuseCalls.drop r.reuseCalls.length) ∧
    (PyRequest.reuse r).buffers = r.buffers ∧
    ∀ b ∈ r.buffers, b ∈ (PyRequest.reuse r).buffers := by
  refine ⟨rfl, ?_, rfl, fun b hb => hb⟩
  simp [PyRequest.reuse, Request.reuse]

/-! Round trip of control values through Python. -/

theorem castItems_roundtrip {α : Type} (toPy : α → PyAtom) (elem : PyAtom → Option α)
    (xs : List α) (h : ∀ x ∈ xs, elem (toPy x) = some x) :
    castItems elem (xs.map toPy) = some xs := by
  induction xs with
  | nil => rfl
  | cons x xs ih =>
    have hx := h x (List.mem_cons_self x xs)
    have hxs := ih (fun y hy => h y (List.mem_cons_of_mem x hy))
    simp [castItems, hx, hxs]

theorem maybeArray_roundtrip {α : Type} (toPy : α → PyAtom) (elem : PyAtom → Option α)
    (v : Elems α) (h : ∀ x ∈ v.toList, elem (toPy x) = some x) :
    ControlValueMaybeArray elem (ValueOrTuple toPy v) = .ok v := by
  cases v with
  | scalar x =>
    have hx := h x (by simp [Elems.toList])
    simp [ControlValueMaybeArray, ValueOrTuple, castVector, castScalar, hx]
  | array xs =>
    have hxs := castItems_roundtrip toPy elem xs h
    simp [ControlValueMaybeArray, ValueOrTuple, castVector, hxs]

theorem valueOrTuple_shape {α : Type} (toPy : α → PyAtom) (v : Elems α) :
    (v.isArray = false → ∃ a, v.toList.map toPy = [a] ∧ ValueOrTuple toPy v = .atom a) ∧
    (v.isArray = true → ValueOrTuple toPy v = .tuple (v.toList.map toPy)) := by
  cases v <;> simp [Elems.isArray, Elems.toList, ValueOrTuple]

/-- C10, as amended. For a control value of type bool, byte, int32, int64 or
float whose elements lie in the ranges of their C types, ControlValueToPy
succeeds: a scalar gives the Python value of its element, an array of n
elements the n-tuple of the Python values of its elements in order. For byte,
int32, int64 and float (signalling NaNs apart) PyToControlValue brings the
result back to the control value it came from, scalar or array; for bool it
does so for a scalar, and throws a cast_error on the tuple of an array. -/
theorem control_value_roundtrip (cv : ControlValue) (hwf : cv.WF)
    (htype : cv.type = .ControlTypeBool ∨ cv.type = .ControlTypeByte ∨
      cv.type = .ControlTypeInteger32 ∨ cv.type = .ControlTypeInteger64 ∨
      cv.type = .ControlTypeFloat)
    (hnan : ∀ x ∈ floatElems cv, isSignallingNaN x = false) :
    ∃ ob, ControlValueToPy cv = .ok ob ∧
      (cv.isArray = false → ∃ a, pyElems cv = [a] ∧ ob = .atom a) ∧
      (cv.isArray = true → ob = .tuple (pyElems cv) ∧
        (pyElems cv).length = cv.numElements) ∧
      PyToControlValue ob cv.type =
        if cv.type = .ControlTypeBool ∧ cv.isArray = true then .error .cast_error
        else .ok cv := by
  cases cv with
  | none => simp [ControlValue.type] at htype
  | string s => simp [ControlValue.type] at htype
  | rectangle v => simp [ControlValue.type] at htype
  | size v => simp [ControlValue.type] at htype
  | bool v =>
    refine ⟨ValueOrTuple PyAtom.bool v, rfl, (valueOrTuple_shape _ v).1, fun h =>
      ⟨(valueOrTuple_shape _ v).2 h, by simp [pyElems, ControlValue.numElements]⟩, ?_⟩
    cases v <;>
      simp [ControlValue.type, ControlValue.isArray, Elems.isArray, PyToControlValue,
        ValueOrTuple, castScalar, castBool]
  | byte v =>
    refine ⟨ValueOrTuple (fun (n : Nat) => PyAtom.int n) v, rfl, (valueOrTuple_shape _ v).1,
      fun h => ⟨(valueOrTuple_shape _ v).2 h, by simp [pyElems, ControlValue.numElements]⟩, ?_⟩
    have h := maybeArray_roundtrip (fun (n : Nat) => PyAtom.int n) castUInt8 v (by
      intro x hx
      have hlt : x < 256 := hwf x hx
      have h1 : (x : Int) ≤ 255 := by omega
      simp [castUInt8, castInt, h1])
    simp [ControlValue.type, PyToControlValue, h, Except.map]
  | int32 v =>
    refine ⟨ValueOrTuple PyAtom.int v, rfl, (valueOrTuple_shape _ v).1,
      fun h => ⟨(valueOrTuple_shape _ v).2 h, by simp [pyElems, ControlValue.numElements]⟩, ?_⟩
    have h := maybeArray_roundtrip PyAtom.int castInt32 v (by
      intro x hx
      have hr := hwf x hx
      simp [castInt32, castInt, hr.1, hr.2])
    simp [ControlValue.type, PyToControlValue, h, Except.map]
  | int64 v =>
    refine ⟨ValueOrTuple PyAtom.int v, rfl, (valueOrTuple_shape _ v).1,
      fun h => ⟨(valueOrTuple_shape _ v).2 h, by simp [pyElems, ControlValue.numElements]⟩, ?_⟩
    have h := maybeArray_roundtrip PyAtom.int castInt64 v (by
      intro x hx
      have hr := hwf x hx
      simp [castInt64, castInt, hr.1, hr.2])
    simp [ControlValue.type, PyToControlValue, h, Except.map]
  | float v =>
    refine ⟨ValueOrTuple (fun f => PyAtom.float (floatToDouble f)) v, rfl,
      (valueOrTuple_shape _ v).1,
      fun h => ⟨(valueOrTuple_shape _ v).2 h, by simp [pyElems, ControlValue.numElements]⟩, ?_⟩
    have h := maybeArray_roundtrip (fun f => PyAtom.float (floatToDouble f)) castFloat v (by
      intro x hx
      have hr : x < 2 ^ 32 := hwf x hx
      simp [castFloat, float_roundtrip x hr (hnan x hx)])
    simp [ControlValue.type, PyToControlValue, h, Except.map]

/-- C10, at a concrete input: the float array (1.5, 0.0) and back. -/
theorem control_value_roundtrip_witness :
    ∃ ob, ControlValueToPy (.float (.array [1069547520, 0])) = .ok ob ∧
      PyToControlValue ob .ControlTypeFloat = .ok (.float (.array [1069547520, 0])) := by
  obtain ⟨ob, h1, _, _, h4⟩ := control_value_roundtrip (.float (.array [1069547520, 0]))
    (by simp [ControlValue.WF, Elems.toList])
    (by simp [ControlValue.type])
    (by simp [floatElems, Elems.toList, isSignallingNaN])
  exact ⟨ob, h1, by simpa [ControlValue.type] using h4⟩

/-- C10, the claim at a failing input: the bool array (true, false) becomes
the tuple (True, False), on which PyToControlValue with type bool throws a
cast_error, so no Python object is the image that converts back. -/
theorem bool_array_roundtrip_fails :
    ControlValueToPy (.bool (.array [true, false]))
      = .ok (.tuple [.bool true, .bool false]) ∧
    PyToControlValue (.tuple [.bool true, .bool false])
      (ControlValue.bool (.array [true, false])).type = .error .cast_error ∧
    ¬ ∃ ob, ControlValueToPy (.bool (.array [true, false])) = .ok ob ∧
      PyToControlValue ob (ControlValue.bool (.array [true, false])).type
        = .ok (.bool (.array [true, false])) := by
  refine ⟨rfl, rfl, ?_⟩
  rintro ⟨ob, h1, h2⟩
  have hob : ob = .tuple [.bool true, .bool false] := by
    have h : (Except.ok (PyObj.tuple [.bool true, .bool false]) : Except PyError PyObj)
        = Except.ok ob := h1
    exact (Except.ok.inj h).symm
  subst hob
  have h3 : (Except.error PyError.cast_error : Except PyError ControlValue)
      = Except.ok (.bool (.array [true, false])) := h2
  exact Except.noConfusion h3

/-! Rectangles and sizes through Python. -/

/-- C11, as amended. ControlValueToPy of a rectangle r gives the 4-tuple
(x, y, width, height) and of a size s the pair (width, height). With type
Rectangle, respectively Size, PyToControlValue brings the tuple back to the
same value when width and height are below 2^31; it reads the tuple as four
(two) int32, so a width or height from 2^31 on is refused with a cast
error. -/
theorem rectangle_size_roundtrip (r : Rectangle) (z : Size)
    (hx : -2147483648 ≤ r.x ∧ r.x ≤ 2147483647)
    (hy : -2147483648 ≤ r.y ∧ r.y ≤ 2147483647) :
    ControlValueToPy (.rectangle (.scalar r))
      = .ok (.tuple [.int r.x, .int r.y, .int r.width, .int r.height]) ∧
    (r.width < 2147483648 ∧ r.height < 2147483648 →
      PyToControlValue (.tuple [.int r.x, .int r.y, .int r.width, .int r.height])
        .ControlTypeRectangle = .ok (.rectangle (.scalar r))) ∧
    (2147483648 ≤ r.width ∨ 2147483648 ≤ r.height →
      PyToControlValue (.tuple [.int r.x, .int r.y, .int r.width, .int r.height])
        .ControlTypeRectangle = .error .cast_error) ∧
    ControlValueToPy (.size (.scalar z)) = .ok (.tuple [.int z.width, .int z.height]) ∧
    (z.width < 2147483648 ∧ z.height < 2147483648 →
      PyToControlValue (.tuple [.int z.width, .int z.height]) .ControlTypeSize
        = .ok (.size (.scalar z))) ∧
    (2147483648 ≤ z.width ∨ 2147483648 ≤ z.height →
      PyToControlValue (.tuple [.int z.width, .int z.height]) .ControlTypeSize
        = .error .cast_error) := by
  obtain ⟨x, y, w, h⟩ := r
  obtain ⟨zw, zh⟩ := z
  simp only at hx hy
  refine ⟨rfl, ?_, ?_, rfl, ?_, ?_⟩
  · rintro ⟨hw, hh⟩
    simp only at hw hh
    have hw1 : (w : Int) ≤ 2147483647 := by omega
    have hh1 : (h : Int) ≤ 2147483647 := by omega
    have hw2 : (-2147483648 : Int) ≤ w := by omega
    have hh2 : (-2147483648 : Int) ≤ h := by omega
    have tw : toUnsigned (w : Int) = w := by unfold toUnsigned; omega
    have th : toUnsigned (h : Int) = h := by unfold toUnsigned; omega
    simp [PyToControlValue, castArray, castVector, castItems, castInt32, castInt, hx.1, hx.2,
      hy.1, hy.2, hw1, hh1, hw2, hh2, tw, th]
  · intro hbig
    have hw2 : (-2147483648 : Int) ≤ w := by omega
    have hh2 : (-2147483648 : Int) ≤ h := by omega
    simp only at hbig
    rcases hbig with hb | hb
    · have hw1 : ¬ ((w : Int) ≤ 2147483647) := by omega
      simp [PyToControlValue, castArray, castVector, castItems, castInt32, castInt, hx.1, hx.2,
        hy.1, hy.2, hw1, hw2]
    · have hh1 : ¬ ((h : Int) ≤ 2147483647) := by omega
      by_cases hw1 : (w : Int) ≤ 2147483647
      · simp [PyToControlValue, castArray, castVector, castItems, castInt32, castInt, hx.1,
          hx.2, hy.1, hy.2, hw1, hw2, hh1, hh2]
      · simp [PyToControlValue, castArray, castVector, castItems, castInt32, castInt, hx.1,
          hx.2, hy.1, hy.2, hw1, hw2]
  · rintro ⟨hw, hh⟩
    simp only at hw hh
    have hw1 : (zw : Int) ≤ 2147483647 := by omega
    have hh1 : (zh : Int) ≤ 2147483647 := by omega
    have hw2 : (-2147483648 : Int) ≤ zw := by omega
    have hh2 : (-2147483648 : Int) ≤ zh := by omega
    have tw : toUnsigned (zw : Int) = zw := by unfold toUnsigned; omega
    have th : toUnsigned (zh : Int) = zh := by unfold toUnsigned; omega
    simp [PyToControlValue, castArray, castVector, castItems, castInt32, castInt, hw1, hh1,
      hw2, hh2, tw, th]
  · intro hbig
    have hw2 : (-2147483648 : Int) ≤ zw := by omega
    have hh2 : (-2147483648 : Int) ≤ zh := by omega
    simp only at hbig
    rcases hbig with hb | hb
    · have hw1 : ¬ ((zw : Int) ≤ 2147483647) := by omega
      simp [PyToControlValue, castArray, castVector, castItems, castInt32, castInt, hw1, hw2]
    · have hh1 : ¬ ((zh : Int) ≤ 2147483647) := by omega
      by_cases hw1 : (zw : Int) ≤ 2147483647
      · simp [PyToControlValue, castArray, castVector, castItems, castInt32, castInt, hw1,
          hw2, hh1, hh2]
      · simp [PyToControlValue, castArray, castVector, castItems, castInt32, castInt, hw1,
          hw2]

/-- C11, at a concrete input: a 640x480 rectangle at (-8, 16) and back. -/
theorem rectangle_size_roundtrip_witness :
    PyToControlValue (.tuple [.int (-8), .int 16, .int 640, .int 480]) .ControlTypeRectangle
      = .ok (.rectangle (.scalar ⟨-8, 16, 640, 480⟩)) :=
  (rectangle_size_roundtrip ⟨-8, 16, 640, 480⟩ ⟨640, 480⟩ (by decide) (by decide)).2.1
    (by decide)

/-- C11, the claim at a failing input: the rectangle of width 2^31 becomes
the tuple (0, 0, 2147483648, 1), which PyToControlValue refuses. -/
theorem rectangle_wide_roundtrip_fails :
    ControlValueToPy (.rectangle (.scalar ⟨0, 0, 2147483648, 1⟩))
      = .ok (.tuple [.int 0, .int 0, .int 2147483648, .int 1]) ∧
    PyToControlValue (.tuple [.int 0, .int 0, .int 2147483648, .int 1]) .ControlTypeRectangle
      = .error .cast_error ∧
    PyToControlValue (.tuple [.int 0, .int 0, .int 2147483648, .int 1]) .ControlTypeRectangle
      ≠ .ok (.rectangle (.scalar ⟨0, 0, 2147483648, 1⟩)) := by
  have h : PyToControlValue (.tuple [.int 0, .int 0, .int 2147483648, .int 1])
      .ControlTypeRectangle = .error .cast_error := by
    simp [PyToControlValue, castArray, castVector, castItems, castInt32, castInt]
  refine ⟨rfl, h, ?_⟩
  rw [h]
  exact fun h2 => Except.noConfusion h2

/-! Frame buffers. -/

theorem pushPlanes_eq (sharedFd : Int → Int) (planes : List (Int × Nat)) (acc : List Plane) :
    planes.foldl (fun v t => v ++ [⟨sharedFd t.1, kInvalidOffset, t.2⟩]) acc
      = acc ++ planes.map (fun t => ⟨sharedFd t.1, kInvalidOffset, t.2⟩) := by
  induction planes generalizing acc with
  | nil => simp
  | cons t ts ih => simp [ih]

/-- C12. The bound constructor of FrameBuffer, for every list of
(descriptor, length) pairs and every cookie: the buffer has one plane for each
pair, in the order of the list; plane i has the length of pair i, which
`length(i)` returns for every i below the number of pairs, and the
invalid-offset marker as offset; the cookie reads back unchanged. -/
theorem framebuffer_from_planes (sharedFd : Int → Int) (planes : List (Int × Nat))
    (cookie : Nat) :
    (PyFrameBuffer.init sharedFd planes cookie).planes
      = planes.map (fun t => ⟨sharedFd t.1, kInvalidOffset, t.2⟩) ∧
    (PyFrameBuffer.init sharedFd planes cookie).planes.length = planes.length ∧
    (∀ i (h : i < planes.length),
      PyFrameBuffer.length (PyFrameBuffer.init sharedFd planes cookie) i
        = some (planes.get ⟨i, h⟩).2) ∧
    (∀ p ∈ (PyFrameBuffer.init sharedFd planes cookie).planes, p.offset = kInvalidOffset) ∧
    PyFrameBuffer.cookie (PyFrameBuffer.init sharedFd planes cookie) = cookie := by
  have hp : (PyFrameBuffer.init sharedFd planes cookie).planes
      = planes.map (fun t => ⟨sharedFd t.1, kInvalidOffset, t.2⟩) := by
    simp [PyFrameBuffer.init, pushPlanes_eq]
  refine ⟨hp, by rw [hp, List.length_map], fun i h => ?_, fun p hmem => ?_, rfl⟩
  · unfold PyFrameBuffer.length
    rw [hp, List.getElem?_map, List.getElem?_eq_getElem h]
    rfl
  · rw [hp, List.mem_map] at hmem
    obtain ⟨t, _, rfl⟩ := hmem
    rfl

/-! Setting a control of a request. -/

theorem ControlList.get_set_same (l : ControlList) (id : Nat) (v : ControlValue) :
    ControlList.get (ControlList.set l id v) id = some v := by
  induction l with
  | nil => simp [ControlList.set, ControlList.get]
  | cons e l ih =>
    obtain ⟨k, w⟩ := e
    by_cases hk : k = id
    · simp [ControlList.set, ControlList.get, hk]
    · have ih1 : Option.map Prod.snd (List.find? (fun e => e.1 == id) (ControlList.set l id v))
          = some v := ih
      simp [ControlList.set, ControlList.get, hk, ih1]

theorem ControlList.get_set_other (l : ControlList) (id k : Nat) (v : ControlValue)
    (h : k ≠ id) :
    ControlList.get (ControlList.set l id v) k = ControlList.get l k := by
  induction l with
  | nil =>
    have h1 : ¬ id = k := fun e => h e.symm
    simp [ControlList.set, ControlList.get, h1]
  | cons e l ih =>
    obtain ⟨j, w⟩ := e
    have ih1 : Option.map Prod.snd (List.find? (fun e => e.1 == k) (ControlList.set l id v))
        = Option.map Prod.snd (List.find? (fun e => e.1 == k) l) := ih
    by_cases hj : j = id
    · subst hj
      have h1 : ¬ j = k := fun e => h e.symm
      simp [ControlList.set, ControlList.get, h1]
    · by_cases hjk : j = k
      · subst hjk
        simp [ControlList.set, ControlList.get, h]
      · simp [ControlList.set, ControlList.get, hj, hjk, ih1]

/-- C16. The bound set_control on a request. When no control of the camera
has the name, the call throws the runtime_error "Control not found" and the
request is as before; when the control is found and the value does not
convert to its type, the call throws the error of the conversion and the
request is as before; otherwise the call returns, the entry of the control
list for the numeric id of the control is the converted value, every other
entry reads as before, and nothing but the control list changed. -/
theorem set_control_atomic (r : Request) (camera : Camera) (control : String)
    (value : PyObj) :
    (camera.controls.find? (fun id => id.name == control) = Option.none →
      PyRequest.set_control r camera control value
        = (.error (.runtime_error "Control not found"), r)) ∧
    (∀ id e, camera.controls.find? (fun id => id.name == control) = some id →
      PyToControlValue value id.type = .error e →
      PyRequest.set_control r camera control value = (.error e, r)) ∧
    (∀ id cv, camera.controls.find? (fun id => id.name == control) = some id →
      PyToControlValue value id.type = .ok cv →
      (PyRequest.set_control r camera control value).1 = .ok () ∧
      ControlList.get (PyRequest.set_control r camera control value).2.controls id.id
        = some cv ∧
      (∀ k, k ≠ id.id →
        ControlList.get (PyRequest.set_control r camera control value).2.controls k
          = ControlList.get r.controls k) ∧
      (PyRequest.set_control r camera control value).2
        = { r with controls := ControlList.set r.controls id.id cv }) := by
  refine ⟨fun h => ?_, fun id e h1 h2 => ?_, fun id cv h1 h2 => ?_⟩
  · simp [PyRequest.set_control, h]
  · simp [PyRequest.set_control, h1, h2]
  · have hrun : PyRequest.set_control r camera control value
        = (.ok (), { r with controls := ControlList.set r.controls id.id cv }) := by
      simp [PyRequest.set_control, h1, h2]
    rw [hrun]
    exact ⟨rfl, ControlList.get_set_same _ _ _,
      fun k hk => ControlList.get_set_other _ _ _ _ hk, rfl⟩

/-- C16, at a concrete input: setting Brightness to the Python float 0.0. -/
theorem set_control_atomic_witness :
    ControlList.get (PyRequest.set_control ⟨0, .RequestPending, [], [(7, .none)], []⟩
      configuredCamera "Brightness" (.atom (.float 0))).2.controls 1
      = some (.float (.scalar 0)) ∧
    ControlList.get (PyRequest.set_control ⟨0, .RequestPending, [], [(7, .none)], []⟩
      configuredCamera "Brightness" (.atom (.float 0))).2.controls 7
      = some .none :=
  have h := (set_control_atomic ⟨0, .RequestPending, [], [(7, .none)], []⟩ configuredCamera
    "Brightness" (.atom (.float 0))).2.2 ⟨1, "Brightness", .ControlTypeFloat⟩
    (.float (.scalar 0)) rfl rfl
  ⟨h.2.1, (h.2.2.1 7 (by decide))⟩

/-! Looking a camera up by a part of its id. -/

theorem startsWith_iff (hay needle : List Char) :
    startsWith hay needle = true ↔ ∃ post, hay = needle ++ post := by
  induction hay generalizing needle with
  | nil =>
    cases needle with
    | nil => simp [startsWith]
    | cons n ns => simp [startsWith]
  | cons h hay ih =>
    cases needle with
    | nil => simp [startsWith]
    | cons n ns =>
      simp only [startsWith, Bool.and_eq_true, beq_iff_eq, ih, List.cons_append,
        List.cons.injEq]
      constructor
      · rintro ⟨rfl, post, rfl⟩
        exact ⟨post, rfl, rfl⟩
      · rintro ⟨post, rfl, rfl⟩
        exact ⟨rfl, post, rfl⟩

theorem strFind_isSome_iff (hay needle : List Char) :
    (strFind hay needle).isSome = true ↔ ∃ pre post, hay = pre ++ needle ++ post := by
  induction hay with
  | nil =>
    cases needle with
    | nil => simp [strFind, startsWith]
    | cons n ns => simp [strFind, startsWith]
  | cons h hay ih =>
    unfold strFind
    by_cases hs : startsWith (h :: hay) needle = true
    · rw [if_pos hs]
      obtain ⟨post, hpost⟩ := (startsWith_iff _ _).mp hs
      simp only [Option.isSome_some, true_iff]
      exact ⟨[], post, by simpa using hpost⟩
    · rw [if_neg hs]
      have hmap : (Option.map (fun p => p + 1) (strFind hay needle)).isSome
          = (strFind hay needle).isSome := by
        cases strFind hay needle <;> rfl
      rw [hmap, ih]
      constructor
      · rintro ⟨pre, post, rfl⟩
        exact ⟨h :: pre, post, by simp⟩
      · rintro ⟨pre, post, hpp⟩
        cases pre with
        | nil =>
          exfalso
          exact hs ((startsWith_iff _ _).mpr ⟨post, by simpa using hpp⟩)
        | cons p pre =>
          refine ⟨pre, post, ?_⟩
          simp only [List.cons_append, List.cons.injEq] at hpp
          exact hpp.2

theorem findLoop_some_iff {C : Type} (id : C → String) (str : List Char) (cameras : List C)
    (c : C) :
    findLoop id str cameras = some c ↔
      ∃ pre post, cameras = pre ++ c :: post ∧
        (strFind (toLowerStr (id c)) str).isSome = true ∧
        ∀ d ∈ pre, (strFind (toLowerStr (id d)) str).isSome = false := by
  induction cameras with
  | nil => simp [findLoop]
  | cons x xs ih =>
    unfold findLoop
    by_cases hx : (strFind (toLowerStr (id x)) str).isSome = true
    · rw [if_pos hx]
      constructor
      · intro h
        have hxc : x = c := Option.some.inj h
        subst hxc
        exact ⟨[], xs, rfl, hx, by simp⟩
      · rintro ⟨pre, post, hsplit, hc, hpre⟩
        cases pre with
        | nil =>
          simp only [List.nil_append, List.cons.injEq] at hsplit
          rw [hsplit.1]
        | cons p pre =>
          simp only [List.cons_append, List.cons.injEq] at hsplit
          have hp := hpre p (List.mem_cons_self p pre)
          rw [← hsplit.1, hx] at hp
          exact Bool.noConfusion hp
    · rw [if_neg hx, ih]
      constructor
      · rintro ⟨pre, post, hsplit, hc, hpre⟩
        refine ⟨x :: pre, post, by simp [hsplit], hc, ?_⟩
        intro d hd
        rcases List.mem_cons.mp hd with rfl | hd
        · simpa using hx
        · exact hpre d hd
      · rintro ⟨pre, post, hsplit, hc, hpre⟩
        cases pre with
        | nil =>
          simp only [List.nil_append, List.cons.injEq] at hsplit
          rw [hsplit.1] at hx
          exact absurd hc hx
        | cons p pre =>
          simp only [List.cons_append, List.cons.injEq] at hsplit
          exact ⟨pre, post, hsplit.2, hc, fun d hd => hpre d (List.mem_cons_of_mem p hd)⟩

theorem findLoop_none_iff {C : Type} (id : C → String) (str : List Char) (cameras : List C) :
    findLoop id str cameras = Option.none ↔
      ∀ d ∈ cameras, (strFind (toLowerStr (id d)) str).isSome = false := by
  induction cameras with
  | nil => simp [findLoop]
  | cons x xs ih =>
    unfold findLoop
    by_cases hx : (strFind (toLowerStr (id x)) str).isSome = true
    · rw [if_pos hx]
      constructor
      · intro h
        exact Option.noConfusion h
      · intro h
        have hf := h x (List.mem_cons_self x xs)
        rw [hx] at hf
        exact Bool.noConfusion hf
    · rw [if_neg hx, ih]
      simp only [List.mem_cons, forall_eq_or_imp]
      constructor
      · intro h
        exact ⟨by simpa using hx, h⟩
      · intro h
        exact h.2

theorem toLower_toUpper (c : Char) : Char.toLower (Char.toUpper c) = Char.toLower c := by
  unfold Char.toUpper
  simp only
  by_cases h : c.toNat ≥ 97 ∧ c.toNat ≤ 122
  · rw [if_pos h]
    have hv : (c.toNat - 32).isValidChar := Or.inl (by omega)
    have hn : (Char.ofNat (c.toNat - 32)).toNat = c.toNat - 32 := by
      simp only [Char.ofNat, hv, dite_true]
      rfl
    have hlow : Char.toLower c = c := by
      unfold Char.toLower
      simp only
      rw [if_neg (by omega)]
    rw [hlow]
    unfold Char.toLower
    simp only
    rw [hn, if_pos (by omega)]
    have : c.toNat - 32 + 32 = c.toNat := by omega
    rw [this]
    exact Char.ofNat_toNat c
  · rw [if_neg h]

theorem toLowerStr_upper (s t : String) (h : t.toList = s.toList.map Char.toUpper) :
    toLowerStr t = toLowerStr s := by
  unfold toLowerStr
  rw [h, List.map_map]
  apply List.map_congr_left
  intro c _
  exact toLower_toUpper c

theorem findLoop_congr {C : Type} (id id2 : C → String) (str : List Char) (cameras : List C)
    (h : ∀ c, toLowerStr (id2 c) = toLowerStr (id c)) :
    findLoop id2 str cameras = findLoop id str cameras := by
  induction cameras with
  | nil => rfl
  | cons x xs ih =>
    unfold findLoop
    rw [h x, ih]

/-- C17. The bound find returns the first camera, in the order of
cameras(), whose lower-cased id holds the lower-cased str as a substring,
and no camera exactly when no id does; a query or ids that differ from the
given ones only by case give the same answer (an upper-cased query among
them), and the empty query returns the first camera when there is one. -/
theorem find_first_match {C : Type} (id : C → String) (cameras : List C) (str : String) :
    (∀ c, CameraManager.find id cameras str = some c ↔
      ∃ pre post, cameras = pre ++ c :: post ∧
        (∃ a b, toLowerStr (id c) = a ++ toLowerStr str ++ b) ∧
        ∀ d ∈ pre, ¬ ∃ a b, toLowerStr (id d) = a ++ toLowerStr str ++ b) ∧
    (CameraManager.find id cameras str = Option.none ↔
      ∀ d ∈ cameras, ¬ ∃ a b, toLowerStr (id d) = a ++ toLowerStr str ++ b) ∧
    (∀ str2, toLowerStr str2 = toLowerStr str →
      CameraManager.find id cameras str2 = CameraManager.find id cameras str) ∧
    (∀ str2 : String, str2.toList = str.toList.map Char.toUpper →
      CameraManager.find id cameras str2 = CameraManager.find id cameras str) ∧
    (∀ id2 : C → String, (∀ c, toLowerStr (id2 c) = toLowerStr (id c)) →
      CameraManager.find id2 cameras str = CameraManager.find id cameras str) ∧
    (∀ c cs, cameras = c :: cs → CameraManager.find id cameras "" = some c) := by
  have hno : ∀ d : C, (strFind (toLowerStr (id d)) (toLowerStr str)).isSome = false ↔
      ¬ ∃ a b, toLowerStr (id d) = a ++ toLowerStr str ++ b := by
    intro d
    rw [← strFind_isSome_iff]
    cases (strFind (toLowerStr (id d)) (toLowerStr str)).isSome <;> simp
  refine ⟨fun c => ?_, ?_, fun str2 h => ?_, fun str2 h => ?_, fun id2 h => ?_,
    fun c cs h => ?_⟩
  · unfold CameraManager.find
    rw [findLoop_some_iff]
    constructor
    · rintro ⟨pre, post, h1, h2, h3⟩
      exact ⟨pre, post, h1, (strFind_isSome_iff _ _).mp h2, fun d hd => (hno d).mp (h3 d hd)⟩
    · rintro ⟨pre, post, h1, h2, h3⟩
      exact ⟨pre, post, h1, (strFind_isSome_iff _ _).mpr h2, fun d hd => (hno d).mpr (h3 d hd)⟩
  · unfold CameraManager.find
    rw [findLoop_none_iff]
    constructor
    · intro h d hd
      exact (hno d).mp (h d hd)
    · intro h d hd
      exact (hno d).mpr (h d hd)
  · unfold CameraManager.find
    rw [h]
  · unfold CameraManager.find
    rw [toLowerStr_upper str str2 h]
  · unfold CameraManager.find
    exact findLoop_congr id id2 _ cameras h
  · subst h
    have hs : (strFind (toLowerStr (id c)) (toLowerStr "")).isSome = true := by
      rw [strFind_isSome_iff]
      exact ⟨[], toLowerStr (id c), by simp [toLowerStr]⟩
    unfold CameraManager.find findLoop
    rw [if_pos hs]

/-- C17, at a concrete input: the query "CAM1" among three cameras. -/
theorem find_first_match_witness :
    CameraManager.find (fun (s : String) => s) ["usb-Cam0", "Platform/Cam1", "cam10"] "CAM1"
      = some "Platform/Cam1" := by
  rw [(find_first_match (fun (s : String) => s) ["usb-Cam0", "Platform/Cam1", "cam10"]
    "CAM1").1]
  refine ⟨["usb-Cam0"], ["cam10"], rfl, ⟨"platform/".toList, [], by decide⟩, ?_⟩
  intro d hd
  rw [List.mem_singleton] at hd
  subst hd
  rw [← strFind_isSome_iff]
  decide

/-! References held on a request. -/

theorem queueRequest_refcnt (w : World) (req : RequestPtr) (ret : Int) (q : RequestPtr) :
    (PyCamera.queueRequest w req ret).1 = ret ∧
    (PyCamera.queueRequest w req ret).2.g_reqlist = w.g_reqlist ∧
    (PyCamera.queueRequest w req ret).2.pyRefcnt q
      = w.pyRefcnt q + (if req = q ∧ ret = 0 then 1 else 0) := by
  unfold PyCamera.queueRequest
  by_cases hret : ret = 0
  · subst hret
    by_cases hq : q = req
    · subst hq
      simp [incRef]
    · have hq2 : ¬ req = q := fun e => hq e.symm
      simp [incRef, hq, hq2]
  · by_cases hq : q = req
    · subst hq
      simp [hret, incRef, decRef]
    · simp [hret, incRef, decRef, hq]

theorem getReadyRequests_refcnt (w : World) (q : RequestPtr) :
    (getReadyRequests w).2.pyRefcnt q
      = w.pyRefcnt q - ((getReadyRequests w).1.count q : Int) := by
  obtain ⟨refs, h1, h2⟩ := getReadyRequests_snd w
  rw [getReadyRequests_fst, h2]
  exact h1 q

theorem runBinding_balance (w : World) (ops : List BindingOp) (q : RequestPtr) :
    (runBinding w ops).2.pyRefcnt q
      = w.pyRefcnt q + (queuedOk q ops : Int) - ((runBinding w ops).1.flatten.count q : Int) ∧
    (runBinding w ops).1.flatten.count q + (runBinding w ops).2.g_reqlist.count q
      = w.g_reqlist.count q + completionsOf q ops := by
  induction ops generalizing w with
  | nil => simp [runBinding, queuedOk, completionsOf]
  | cons op ops ih =>
    cases op with
    | queueRequest req ret =>
      obtain ⟨_, h2, h3⟩ := queueRequest_refcnt w req ret q
      obtain ⟨i1, i2⟩ := ih (PyCamera.queueRequest w req ret).2
      simp only [runBinding, queuedOk, completionsOf]
      rw [i1, i2, h2, h3]
      refine ⟨?_, rfl⟩
      split <;> omega
    | completed req =>
      obtain ⟨i1, i2⟩ := ih (handleRequestCompleted w req)
      simp only [runBinding, queuedOk, completionsOf]
      rw [i1, i2]
      refine ⟨rfl, ?_⟩
      by_cases hq : req = q
      · subst hq
        simp [handleRequestCompleted]
        omega
      · simp [handleRequestCompleted, List.count_cons, hq]
    | drain =>
      obtain ⟨i1, i2⟩ := ih (getReadyRequests w).2
      simp only [runBinding, queuedOk, completionsOf, List.flatten_cons, List.count_append]
      rw [i1, getReadyRequests_refcnt, getReadyRequests_reqlist] at *
      rw [getReadyRequests_fst] at *
      refine ⟨?_, ?_⟩
      · push_cast
        omega
      · simp only [List.count_nil] at i2
        omega

/-- Reference balance of a request q for each run of the handler. The bound
queueRequest returns the result of the underlying call and leaves the count
of the request as it was when that result is not zero, one higher when it is
zero; getReadyRequests lowers the count of each request by the number of
times it returns it. For operations in which the handler has run for q at
most as often as q was queued successfully (and q is not pending at the
outset), the count of q is never below its value at the outset; and when q
was queued successfully once, the handler ran once for it and q is no longer
pending, the count is back at its value at the outset. -/
theorem request_reference_balance (w : World) (q : RequestPtr) (ops : List BindingOp)
    (hq0 : q ∉ w.g_reqlist)
    (hcausal : ∀ p rest, ops = p ++ rest → completionsOf q p ≤ queuedOk q p) :
    (∀ ret, (PyCamera.queueRequest w q ret).1 = ret ∧
      (ret ≠ 0 → (PyCamera.queueRequest w q ret).2.pyRefcnt q = w.pyRefcnt q) ∧
      (ret = 0 → (PyCamera.queueRequest w q ret).2.pyRefcnt q = w.pyRefcnt q + 1)) ∧
    (getReadyRequests w).2.pyRefcnt q
      = w.pyRefcnt q - ((getReadyRequests w).1.count q : Int) ∧
    (∀ p rest, ops = p ++ rest → w.pyRefcnt q ≤ (runBinding w p).2.pyRefcnt q) ∧
    (queuedOk q ops = 1 → completionsOf q ops = 1 → q ∉ (runBinding w ops).2.g_reqlist →
      (runBinding w ops).2.pyRefcnt q = w.pyRefcnt q) := by
  have hzero : w.g_reqlist.count q = 0 := List.count_eq_zero_of_not_mem hq0
  refine ⟨fun ret => ?_, getReadyRequests_refcnt w q, fun p rest hp => ?_, fun h1 h2 h3 => ?_⟩
  · obtain ⟨a, _, c⟩ := queueRequest_refcnt w q ret q
    refine ⟨a, fun hne => ?_, fun he => ?_⟩
    · rw [c]; simp [hne]
    · rw [c]; simp [he]
  · obtain ⟨b1, b2⟩ := runBinding_balance w p q
    have hc := hcausal p rest hp
    rw [b1]
    omega
  · obtain ⟨b1, b2⟩ := runBinding_balance w ops q
    have hpend : (runBinding w ops).2.g_reqlist.count q = 0 :=
      List.count_eq_zero_of_not_mem h3
    rw [b1]
    omega

/-- The balance with one run of the handler: request 5 is queued, the handler
runs once for it and it is drained; its count is 1 while it is in flight and
0 again after the drain. -/
theorem request_reference_balance_witness :
    (runBinding firstManager [.queueRequest 5 0, .completed 5]).2.pyRefcnt 5 = 1 ∧
    (runBinding firstManager [.queueRequest 5 0, .completed 5, .drain]).2.pyRefcnt 5
      = firstManager.pyRefcnt 5 :=
  have hc : ∀ p rest, [BindingOp.queueRequest 5 0, .completed 5, .drain] = p ++ rest →
      completionsOf 5 p ≤ queuedOk 5 p := by
    intro p rest h
    match p, h with
    | [], _ => decide
    | [_], h => cases h; decide
    | [_, _], h => cases h; decide
    | [_, _, _], h => cases h; decide
    | _ :: _ :: _ :: _ :: _, h => simp at h
  ⟨rfl, (request_reference_balance firstManager 5
    [.queueRequest 5 0, .completed 5, .drain] (by decide) hc).2.2.2 rfl rfl (by decide)⟩

/-! The M2M device test. -/

theorem queueOutputBuffers_fields (env : M2MEnv) (l : List Nat) (t : V4L2M2MDeviceTest) :
    (queueOutputBuffers env t l).2.captureBufferReady = t.captureBufferReady ∧
    (queueOutputBuffers env t l).2.outputBufferReady = t.outputBufferReady ∧
    (queueOutputBuffers env t l).2.captureFrames_ = t.captureFrames_ ∧
    (queueOutputBuffers env t l).2.outputFrames_ = t.outputFrames_ ∧
    ∃ extra, (queueOutputBuffers env t l).2.calls = t.calls ++ extra ∧
      ∀ c ∈ extra, ∃ i r, c = DeviceCall.queueBuffer .output i r := by
  induction l generalizing t with
  | nil => exact ⟨rfl, rfl, rfl, rfl, [], by simp [queueOutputBuffers], by simp⟩
  | cons i rest ih =>
    unfold queueOutputBuffers
    by_cases h : env.queueOutput i ≠ 0
    · rw [if_pos h]
      exact ⟨rfl, rfl, rfl, rfl, [.queueBuffer .output i (env.queueOutput i)], rfl,
        by simp⟩
    · rw [if_neg h]
      obtain ⟨h1, h2, h3, h4, extra, h5, h6⟩ :=
        ih (logCall t (.queueBuffer .output i (env.queueOutput i)))
      refine ⟨h1, h2, h3, h4, .queueBuffer .output i (env.queueOutput i) :: extra, ?_, ?_⟩
      · rw [h5]; simp [logCall]
      · intro c hc
        rcases List.mem_cons.1 hc with hc | hc
        · exact ⟨i, _, hc⟩
        · exact h6 c hc

/-- Whatever holds at construction and is kept by every call startStreaming
logs, by the two connects and by the queueing of the output buffers holds
where startStreaming returns. -/
theorem startStreaming_induct (P : V4L2M2MDeviceTest → Prop) (env : M2MEnv)
    (h0 : P ⟨0, 0, [], [], []⟩)
    (hlog : ∀ t c, P t → (∀ q r, c ≠ DeviceCall.streamOff q r) →
      (∀ i r, c ≠ DeviceCall.queueBuffer .capture i r) → P (logCall t c))
    (hconn : ∀ t a b, P t → P { t with captureBufferReady := a, outputBufferReady := b })
    (hq : ∀ t l, P t → P (queueOutputBuffers env t l).2) :
    P (startStreaming env).2 := by
  have h1 := hlog _ (.openDevice env.openRet) h0 (by simp) (by simp)
  have h2 := hlog _ (.getFormat .capture env.getFormatRet) h1 (by simp) (by simp)
  have h3 := hlog _ (.setFormat .capture 640 480 env.setFormatCapture) h2
    (by simp) (by simp)
  have h4 := hlog _
    (.setFormat .output env.adjusted.1 env.adjusted.2 env.setFormatOutput) h3
    (by simp) (by simp)
  have h5 := hlog _ (.createBuffers .capture bufferCount) h4 (by simp) (by simp)
  have h6 := hlog _ (.createBuffers .output bufferCount) h5 (by simp) (by simp)
  have h7 := hlog _ (.exportBuffers .capture env.exportCapture) h6 (by simp) (by simp)
  have h8 := hlog _ (.exportBuffers .output env.exportOutput) h7 (by simp) (by simp)
  have h9 := hlog _ (.queueAllBuffers .capture env.captureBuffers)
    (hconn _ [TestSlot.receiveCaptureBuffer] [TestSlot.outputBufferComplete] h8)
    (by simp) (by simp)
  have h10 := hq _ (List.range env.outputPoolCount) h9
  have h11 := hlog _ (.streamOn .capture env.streamOnCapture) h10 (by simp) (by simp)
  have h12 := hlog _ (.streamOn .output env.streamOnOutput) h11 (by simp) (by simp)
  unfold startStreaming
  dsimp only
  by_cases c1 : env.openRet ≠ 0
  · rw [if_pos c1]; exact h1
  rw [if_neg c1]
  by_cases c2 : env.getFormatRet ≠ 0
  · rw [if_pos c2]; exact h2
  rw [if_neg c2]
  by_cases c3 : env.setFormatCapture ≠ 0
  · rw [if_pos c3]; exact h3
  rw [if_neg c3]
  by_cases c4 : env.setFormatOutput ≠ 0
  · rw [if_pos c4]; exact h4
  rw [if_neg c4]
  by_cases c5 : env.exportCapture ≠ 0
  · rw [if_pos c5]; exact h7
  rw [if_neg c5]
  by_cases c6 : env.exportOutput ≠ 0
  · rw [if_pos c6]; exact h8
  rw [if_neg c6]
  by_cases c7 : env.captureBuffers = 0
  · rw [if_pos c7]; exact h9
  rw [if_neg c7]
  split
  · exact h10
  by_cases c9 : env.streamOnCapture ≠ 0
  · rw [if_pos c9]; exact h11
  rw [if_neg c9]
  by_cases c10 : env.streamOnOutput ≠ 0
  · rw [if_pos c10]; exact h12
  rw [if_neg c10]
  exact h12

theorem captureRequeues_append (l : List DeviceCall) (c : DeviceCall) :
    captureRequeues (l ++ [c]) = captureRequeues l +
      (match c with | .queueBuffer .capture _ _ => 1 | _ => 0) := by
  unfold captureRequeues
  rw [List.countP_append, List.countP_cons, List.countP_nil]
  cases c with
  | queueBuffer q i r => cases q <;> rfl
  | _ => rfl

/-- Every return of startStreaming leaves the test with no frame counted, no
streamOff made and no buffer queued again on the capture queue. -/
theorem startStreaming_state (env : M2MEnv) :
    ((startStreaming env).2.captureFrames_ = 0 ∧
    (startStreaming env).2.outputFrames_ = 0) ∧
    (∀ c ∈ (startStreaming env).2.calls, ∀ q r, c ≠ DeviceCall.streamOff q r) ∧
    captureRequeues (startStreaming env).2.calls = 0 := by
  apply startStreaming_induct
    (fun t => (t.captureFrames_ = 0 ∧ t.outputFrames_ = 0) ∧
      (∀ c ∈ t.calls, ∀ q r, c ≠ DeviceCall.streamOff q r) ∧ captureRequeues t.calls = 0)
  · exact ⟨⟨rfl, rfl⟩, (by intro c hc; cases hc), rfl⟩
  · intro t c ⟨h1, h2, h3⟩ hc hq
    refine ⟨h1, ?_, ?_⟩
    · intro x hx
      rcases List.mem_append.1 hx with hx | hx
      · exact h2 x hx
      · rw [List.mem_singleton.1 hx]; exact hc
    · show captureRequeues (t.calls ++ [c]) = 0
      rw [captureRequeues_append, h3]
      cases c with
      | queueBuffer q i r =>
        cases q with
        | capture => exact absurd rfl (hq i r)
        | output => rfl
      | _ => rfl
  · intro t a b h; exact h
  · intro t l ⟨⟨h1, h1b⟩, h2, h3⟩
    obtain ⟨_, _, e3, e4, extra, e5, e6⟩ := queueOutputBuffers_fields env l t
    refine ⟨⟨e3.trans h1, e4.trans h1b⟩, ?_, ?_⟩
    · intro x hx
      rw [e5] at hx
      rcases List.mem_append.1 hx with hx | hx
      · exact h2 x hx
      · obtain ⟨i, r, rfl⟩ := e6 x hx
        intro q r; simp
    · rw [e5]
      unfold captureRequeues at h3 ⊢
      rw [List.countP_append, h3, Nat.zero_add, List.countP_eq_zero]
      intro x hx
      obtain ⟨i, r, rfl⟩ := e6 x hx
      simp

theorem emitBufferReady_inv (e : BufferEvent) (t : V4L2M2MDeviceTest)
    (h : t.captureFrames_ ≤ captureRequeues t.calls ∧
      ∀ c ∈ t.calls, ∀ q r, c ≠ DeviceCall.streamOff q r) :
    (emitBufferReady t e).captureFrames_ ≤ captureRequeues (emitBufferReady t e).calls ∧
      ∀ c ∈ (emitBufferReady t e).calls, ∀ q r, c ≠ DeviceCall.streamOff q r := by
  have key : ∀ (slots : List TestSlot) (t : V4L2M2MDeviceTest),
      (t.captureFrames_ ≤ captureRequeues t.calls ∧
        ∀ c ∈ t.calls, ∀ q r, c ≠ DeviceCall.streamOff q r) →
      (slots.foldl (fun (t : V4L2M2MDeviceTest) (s : TestSlot) =>
        match s with
        | .receiveCaptureBuffer => receiveCaptureBuffer t e.index e.requeueRet
        | .outputBufferComplete => outputBufferComplete t e.index e.requeueRet)
        t).captureFrames_ ≤ captureRequeues (slots.foldl
          (fun (t : V4L2M2MDeviceTest) (s : TestSlot) =>
        match s with
        | .receiveCaptureBuffer => receiveCaptureBuffer t e.index e.requeueRet
        | .outputBufferComplete => outputBufferComplete t e.index e.requeueRet) t).calls ∧
      ∀ c ∈ (slots.foldl (fun (t : V4L2M2MDeviceTest) (s : TestSlot) =>
        match s with
        | .receiveCaptureBuffer => receiveCaptureBuffer t e.index e.requeueRet
        | .outputBufferComplete => outputBufferComplete t e.index e.requeueRet) t).calls,
        ∀ q r, c ≠ DeviceCall.streamOff q r := by
    intro slots
    induction slots with
    | nil => intro t h; exact h
    | cons s rest ih =>
      intro t ⟨h1, h2⟩
      rw [List.foldl_cons]
      apply ih
      cases s with
      | receiveCaptureBuffer =>
        constructor
        · show (t.captureFrames_ + 1) % 2 ^ 32 ≤ captureRequeues (t.calls ++ [_])
          rw [captureRequeues_append]
          exact Nat.le_trans (Nat.mod_le _ _) (Nat.add_le_add_right h1 1)
        · intro c hc
          rcases List.mem_append.1 hc with hc | hc
          · exact h2 c hc
          · rw [List.mem_singleton.1 hc]; intro q r; simp
      | outputBufferComplete =>
        constructor
        · show t.captureFrames_ ≤ captureRequeues (t.calls ++ [_])
          rw [captureRequeues_append]
          exact h1
        · intro c hc
          rcases List.mem_append.1 hc with hc | hc
          · exact h2 c hc
          · rw [List.mem_singleton.1 hc]; intro q r; simp
  unfold emitBufferReady
  exact key _ t h

theorem processEvents_inv (pass : List BufferEvent) (t : V4L2M2MDeviceTest)
    (h : t.captureFrames_ ≤ captureRequeues t.calls ∧
      ∀ c ∈ t.calls, ∀ q r, c ≠ DeviceCall.streamOff q r) :
    (processEvents t pass).captureFrames_ ≤ captureRequeues (processEvents t pass).calls ∧
      ∀ c ∈ (processEvents t pass).calls, ∀ q r, c ≠ DeviceCall.streamOff q r := by
  induction pass generalizing t with
  | nil => exact h
  | cons e rest ih => exact ih (emitBufferReady t e) (emitBufferReady_inv e t h)

theorem eventLoop_inv (passes : List (List BufferEvent)) (t : V4L2M2MDeviceTest)
    (h : t.captureFrames_ ≤ captureRequeues t.calls ∧
      ∀ c ∈ t.calls, ∀ q r, c ≠ DeviceCall.streamOff q r) :
    (eventLoop t passes).captureFrames_ ≤ captureRequeues (eventLoop t passes).calls ∧
      ∀ c ∈ (eventLoop t passes).calls, ∀ q r, c ≠ DeviceCall.streamOff q r := by
  induction passes generalizing t with
  | nil => exact h
  | cons pass rest ih =>
    unfold eventLoop
    split
    · exact processEvents_inv pass t h
    · exact ih _ (processEvents_inv pass t h)

/-- The calls of run() either hold no streamOff of the output queue, or end
with a successful streamOff of the capture queue followed by the streamOff
of the output queue, with no other streamOff before. -/
theorem run_calls_shape (env : M2MEnv) :
    (∀ c ∈ (run env).2.calls, ∀ r, c ≠ DeviceCall.streamOff .output r) ∨
    ∃ L r, (run env).2.calls = (L ++ [DeviceCall.streamOff .capture 0]) ++
        [DeviceCall.streamOff .output r] ∧
      ∀ c ∈ L, ∀ q r, c ≠ DeviceCall.streamOff q r := by
  unfold run
  obtain ⟨⟨s1, _⟩, s2, s3⟩ := startStreaming_state env
  by_cases c : (startStreaming env).1 = false
  · rw [if_pos c]; exact Or.inl (fun x hx r => s2 x hx _ r)
  rw [if_neg c]
  have hinv := (eventLoop_inv env.passes (startStreaming env).2
    ⟨by rw [s1]; exact Nat.zero_le _, s2⟩).2
  generalize eventLoop (startStreaming env).2 env.passes = t at hinv
  unfold stopStreaming
  dsimp only
  by_cases c1 : t.captureFrames_ < 30
  · rw [if_pos c1]; exact Or.inl (fun x hx r => hinv x hx _ r)
  rw [if_neg c1]
  by_cases c2 : env.streamOffCapture ≠ 0
  · rw [if_pos c2]
    left
    intro x hx r
    rcases List.mem_append.1 hx with hx | hx
    · exact hinv x hx _ r
    · rw [List.mem_singleton.1 hx]; simp
  rw [if_neg c2]
  have d2 : env.streamOffCapture = 0 := not_not.1 c2
  right
  by_cases c3 : env.streamOffOutput ≠ 0
  · rw [if_pos c3]; exact ⟨t.calls, env.streamOffOutput, by simp [logCall, d2], hinv⟩
  · rw [if_neg c3]; exact ⟨t.calls, env.streamOffOutput, by simp [logCall, d2], hinv⟩

theorem append_singleton_split (b c : DeviceCall) (A pre post : List DeviceCall)
    (hc : c ∉ A) (h : A ++ [b] = pre ++ c :: post) : pre = A ∧ post = [] ∧ b = c := by
  induction A generalizing pre with
  | nil =>
    cases pre with
    | nil =>
      simp only [List.nil_append, List.cons.injEq] at h
      exact ⟨rfl, h.2.symm, h.1⟩
    | cons x pre1 =>
      simp only [List.nil_append, List.cons_append, List.cons.injEq] at h
      cases pre1 <;> simp at h
  | cons a A1 ih =>
    cases pre with
    | nil =>
      simp only [List.nil_append, List.cons_append, List.cons.injEq] at h
      exact absurd (h.1 ▸ List.mem_cons_self _ _) hc
    | cons x pre1 =>
      simp only [List.cons_append, List.cons.injEq] at h
      obtain ⟨p1, p2, p3⟩ := ih pre1 (fun hm => hc (List.mem_cons_of_mem _ hm)) h.2
      exact ⟨by rw [h.1, p1], p2, p3⟩

theorem captureStreaming_stopped (L : List DeviceCall) :
    captureStreaming (L ++ [DeviceCall.streamOff .capture 0]) = false := by
  unfold captureStreaming
  rw [List.foldl_append]
  rfl

/-- C14: whenever run() calls streamOff on the output queue, the call right
before it is a streamOff of the capture queue that returned 0, the capture
queue is not streaming at that point, and the output streamOff is the last
call of run(). -/
theorem capture_stops_before_output (env : M2MEnv) (pre post : List DeviceCall) (r : Int)
    (h : (run env).2.calls = pre ++ DeviceCall.streamOff .output r :: post) :
    pre.getLast? = some (DeviceCall.streamOff .capture 0) ∧
    DeviceCall.streamOff .capture 0 ∈ pre ∧
    captureStreaming pre = false ∧
    post = [] := by
  rcases run_calls_shape env with hno | ⟨L, r1, hL, hLn⟩
  · exact absurd rfl (hno (DeviceCall.streamOff .output r) (by rw [h]; simp) r)
  · rw [hL] at h
    have hnot : DeviceCall.streamOff .output r ∉ L ++ [DeviceCall.streamOff .capture 0] := by
      intro hm
      rcases List.mem_append.1 hm with hm | hm
      · exact hLn _ hm _ _ rfl
      · simp at hm
    obtain ⟨p1, p2, _⟩ := append_singleton_split _ _ _ _ _ hnot h
    subst p1
    exact ⟨by simp, by simp, captureStreaming_stopped L, p2⟩

/-- C14, at a concrete input: with every call successful and 31 passes of
one capture completion each, run() passes and stops the capture queue right
before the output queue. -/
theorem capture_stops_before_output_witness :
    (run goodEnv).1 = .TestPass ∧
    ((run goodEnv).2.calls.dropLast).getLast? = some (DeviceCall.streamOff .capture 0) ∧
    captureStreaming (run goodEnv).2.calls.dropLast = false :=
  have h := capture_stops_before_output goodEnv (run goodEnv).2.calls.dropLast [] 0 (by decide)
  ⟨by decide, h.1, h.2.2.1⟩

/-- C15, the code at the failing input: a start that throws on an unknown
control leaves the handler connected and the next start connects it again;
request 77 is then queued successfully once (its count goes from 0 to 1) and
completes once, the handler runs twice, the drain returns the request twice
and lowers its count twice: the count ends at -1, one below its value before
the request was queued. -/
theorem double_delivery_unbalances_references :
    (PyCamera.queueRequest firstManager 77 0).1 = 0 ∧
    firstManager.pyRefcnt 77 = 0 ∧
    (PyCamera.queueRequest firstManager 77 0).2.pyRefcnt 77 = 1 ∧
    (emitRequestCompleted (runCamera configuredCamera
      [.start [(.atom (.str "NoSuchControl"), .atom (.int 1))] 0, .start [] 0])
      (PyCamera.queueRequest firstManager 77 0).2 77).g_reqlist = [77, 77] ∧
    (getReadyRequests (emitRequestCompleted (runCamera configuredCamera
      [.start [(.atom (.str "NoSuchControl"), .atom (.int 1))] 0, .start [] 0])
      (PyCamera.queueRequest firstManager 77 0).2 77)).1 = [77, 77] ∧
    (getReadyRequests (emitRequestCompleted (runCamera configuredCamera
      [.start [(.atom (.str "NoSuchControl"), .atom (.int 1))] 0, .start [] 0])
      (PyCamera.queueRequest firstManager 77 0).2 77)).2.pyRefcnt 77 = -1 ∧
    (getReadyRequests (emitRequestCompleted (runCamera configuredCamera
      [.start [(.atom (.str "NoSuchControl"), .atom (.int 1))] 0, .start [] 0])
      (PyCamera.queueRequest firstManager 77 0).2 77)).2.pyRefcnt 77
      < firstManager.pyRefcnt 77 := by
  refine ⟨rfl, rfl, rfl, rfl, rfl, rfl, ?_⟩
  decide

end Libcamera
